import Mathlib

set_option linter.unnecessarySimpa false

/-!
# Verification of the `MainViewManager` pane/view-list module

A shallow embedding of `src/view/MainViewManager.js`: the pane registry,
active-pane tracking, per-pane view lists, split/unsplit, and the
open/close orchestration, together with proofs of the specification
claims about them.

Files are identified by their full path (a string).  The collaborating
`Pane` class (`view/Pane`) is not part of the provided sources, so its
methods are modelled from the specification and marked as such in their
doc comments.  Everything else is translated directly from
`MainViewManager.js`.

JavaScript runtime errors (`TypeError` from dereferencing `null` or
`undefined`) are modelled by `Option`-valued operations returning `none`.
-/

/-- A file reference, identified by its `fullPath`. -/
abbrev File := String

/-- The `ALL_PANES` sentinel pane id. -/
def ALL_PANES : String := "ALL_PANES"

/-- The `FOCUSED_PANE` sentinel pane id. -/
def FOCUSED_PANE : String := "FOCUSED_PANE"

/-- The `FIRST_PANE` concrete pane id. -/
def FIRST_PANE : String := "first-pane"

/-- The `SECOND_PANE` concrete pane id. -/
def SECOND_PANE : String := "second-pane"

/-- Split orientation (`VERTICAL` / `HORIZONTAL`); the JS `_orientation`
variable is an `Option Orient`, `none` standing for `null` (no split). -/
inductive Orient where
  | vertical
  | horizontal
deriving DecidableEq, Repr

/-- Stand-ins for the `Strings.LEFT/RIGHT/TOP/BOTTOM` localized titles. -/
def LEFT_TITLE : String := "Left"

/-- Stand-in for `Strings.RIGHT`. -/
def RIGHT_TITLE : String := "Right"

/-- Stand-in for `Strings.TOP`. -/
def TOP_TITLE : String := "Top"

/-- Stand-in for `Strings.BOTTOM`. -/
def BOTTOM_TITLE : String := "Bottom"

/-- Modelled from the spec: a `Pane` (view/Pane, not in the provided
sources) owns an ordered list of open file references (`viewList`,
insertion order — the canonical view list), a derived MRU ordering over
the same set (`mruList`), its identity, and an optional currently viewed
file. -/
structure Pane where
  id : String
  viewList : List File
  mruList : List File
  currentFile : Option File
deriving DecidableEq, Repr

/-- Modelled from the spec: a freshly created Pane (`new Pane(paneId, ...)`)
has empty view and MRU lists and no currently viewed file. -/
def mkPane (paneId : String) : Pane :=
  { id := paneId, viewList := [], mruList := [], currentFile := none }

/-- The notifications the module emits through the event bus
(`$(exports).triggerHandler(...)`), with their payloads. -/
inductive Ev where
  | activePaneChange (newPaneId oldPaneId : String)
  | currentFileChanged (file : Option File) (paneId : String)
  | paneViewListAdd (file : File) (index : Nat) (paneId : String)
  | paneViewListAddList (files : List File) (paneId : String)
  | paneViewListRemove (file : File) (suppressRedraw : Bool) (paneId : String)
  | paneViewListRemoveList (files : List File) (paneId : String)
  | paneViewListSort (paneId : String)
  | paneViewListDisableAutoSorting (paneId : String)
  | paneCreated (paneId : String)
  | paneDestroyed (paneId : String)
  | paneLayoutChange (orientation : Option Orient)
deriving DecidableEq, Repr

/-- The module state: the pane registry `_paneViews` (a string-keyed
object, i.e. an association list in key-insertion order), `_activePaneId`
and `_orientation`. -/
structure MVM where
  paneViews : List (String × Pane)
  activePaneId : String
  orientation : Option Orient
deriving DecidableEq, Repr

/-- The external collaborators consumed by the module (EditorManager,
DocumentManager, ProjectManager), abstracted as pure oracles keyed by
file path, as in spec section 6. -/
structure Env where
  canOpenFile : File → Bool
  getOpenDocumentForPath : File → Bool
  getDocumentForPath : File → Except String Unit
  isWithinProject : File → Bool
  isUntitledDoc : File → Bool

/-- The reject reasons `doOpen` can produce, one per reject call site. -/
inductive RejectReason where
  | badArgument
  | fileError (e : String)
  | customViewerNotImplemented
deriving DecidableEq, Repr

/-- The diagnostic string carried by each reject reason. -/
def RejectReason.message : RejectReason → String
  | .badArgument => "bad argument"
  | .fileError e => e
  | .customViewerNotImplemented =>
      "custom viewers not yet implemented with split view. check back later."

/-- Outcome of the deferred result of `doOpen`. -/
inductive OpenOutcome where
  | resolvedDoc (f : File)
  | rejected (r : RejectReason)
deriving DecidableEq, Repr

/-- Result of `_doFindInViewList` / `findInPaneViewList`:
`-1` (`notFound`), a plain index (`idx`), a `{paneId, index}` record
(`panePos`, for the `ALL_PANES` search), or JS `undefined` (`undef`,
the fall-through when a concrete pane id is not in the registry). -/
inductive FindRes where
  | notFound
  | idx (i : Nat)
  | panePos (paneId : String) (i : Nat)
  | undef
deriving DecidableEq, Repr

/-- The initial state: `AppInit.htmlReady` runs
`_createPaneIfNecessary(FIRST_PANE)` on the empty registry, with
`_activePaneId = FIRST_PANE` and `_orientation = null`. -/
def initialState : MVM :=
  { paneViews := [(FIRST_PANE, mkPane FIRST_PANE)]
    activePaneId := FIRST_PANE
    orientation := none }

/-- `getActivePaneId`. -/
def getActivePaneId (s : MVM) : String := s.activePaneId

/-- `getSplitOrientation`. -/
def getSplitOrientation (s : MVM) : Option Orient := s.orientation

/-- The pane id actually used by `_getPaneFromPaneId`: a falsy id or
`FOCUSED_PANE` resolves to the active pane id. -/
def resolvePaneId (s : MVM) (paneId : String) : String :=
  if paneId = "" ∨ paneId = FOCUSED_PANE then getActivePaneId s else paneId

/-- `_getPaneFromPaneId`: resolve falsy / `FOCUSED_PANE` to the active
pane id, then look the id up in `_paneViews`, `null` if absent. -/
def _getPaneFromPaneId (s : MVM) (paneId : String) : Option Pane :=
  (s.paneViews.lookup (resolvePaneId s paneId))

/-- `_getActivePane`. -/
def _getActivePane (s : MVM) : Option Pane :=
  _getPaneFromPaneId s s.activePaneId

/-- Replace the registry entry whose key is `p.id` by `p` (the effect of
mutating a pane object held in `_paneViews`). -/
def setPane (s : MVM) (p : Pane) : MVM :=
  { s with paneViews := s.paneViews.map (fun pr => if pr.1 == p.id then (pr.1, p) else pr) }

/-- `setActivePaneId`: only changes the active pane when the requested id
is a registry key and differs from the current one; then emits
`activePaneChange` and `currentFileChanged`. -/
def setActivePaneId (s : MVM) (newPaneId : String) : MVM × List Ev :=
  if (s.paneViews.lookup newPaneId).isSome ∧ newPaneId ≠ s.activePaneId then
    let oldPaneId := s.activePaneId
    let s' : MVM := { s with activePaneId := newPaneId }
    (s', [Ev.activePaneChange newPaneId oldPaneId,
          Ev.currentFileChanged ((_getActivePane s').bind Pane.currentFile) newPaneId])
  else (s, [])

/-- lodash `_.union(acc, l)`: append the members of `l` not already in
`acc`, keeping first occurrences. -/
def unionInto (acc : List File) : List File → List File
  | [] => acc
  | f :: rest => if f ∈ acc then unionInto acc rest else unionInto (acc ++ [f]) rest

/-- `getPaneViewList`: for `ALL_PANES` the `_.union` of all panes' view
lists; otherwise the resolved pane's view list, `null` (`none`) when the
pane id is unknown. -/
def getPaneViewList (s : MVM) (paneId : String) : Option (List File) :=
  if paneId = ALL_PANES then
    some (s.paneViews.foldl (fun acc pr => unionInto acc pr.2.viewList) [])
  else
    match _getPaneFromPaneId s paneId with
    | some pane => some pane.viewList
    | none => none

/-- `getPaneIdList`. -/
def getPaneIdList (s : MVM) : List String := s.paneViews.map Prod.fst

/-- `getPaneViewListSize`: sums all panes for `ALL_PANES`; an unknown
pane id contributes nothing, leaving the initial `0`. -/
def getPaneViewListSize (s : MVM) (paneId : String) : Nat :=
  if paneId = ALL_PANES then
    s.paneViews.foldl (fun acc pr => acc + pr.2.viewList.length) 0
  else
    match _getPaneFromPaneId s paneId with
    | some pane => pane.viewList.length
    | none => 0

/-- The `_paneTitles` two-level table, as initialized at module load:
`none` models the `undefined` first-level lookup for any key other than
the two concrete pane ids. -/
def paneTitleTable (paneId : String) : Option (List (Orient × String)) :=
  if paneId = FIRST_PANE then
    some [(Orient.vertical, LEFT_TITLE), (Orient.horizontal, TOP_TITLE)]
  else if paneId = SECOND_PANE then
    some [(Orient.vertical, RIGHT_TITLE), (Orient.horizontal, BOTTOM_TITLE)]
  else none

/-- `getPaneTitle`: the unguarded `_paneTitles[paneId][_orientation]`.
Outer `none` models the thrown `TypeError` when `_paneTitles[paneId]` is
`undefined`; `some none` models an `undefined` title (e.g. when
`_orientation` is `null`). -/
def getPaneTitle (s : MVM) (paneId : String) : Option (Option String) :=
  match paneTitleTable paneId with
  | none => none
  | some tbl =>
    some (match s.orientation with
          | none => none
          | some o => tbl.lookup o)

/-- `getPaneCount`. -/
def getPaneCount (s : MVM) : Nat := s.paneViews.length

/-- Modelled from the spec: `Pane.findInViewList` locates a file's
position in the pane's view list by full path, `-1` (here `none`) if not
found. -/
def Pane.findInViewList (p : Pane) (fullPath : File) : Option Nat :=
  p.viewList.findIdx? (fun g => g == fullPath)

/-- The `ALL_PANES` branch of `_doFindInViewList` (searching
`findInViewList`): iterate the registry in order, returning the first
pane reporting a non-negative index as a `{paneId, index}` record,
`-1` otherwise. -/
def findInAllPanes : List (String × Pane) → File → FindRes
  | [], _ => FindRes.notFound
  | (_, p) :: rest, fullPath =>
    match p.findInViewList fullPath with
    | some i => FindRes.panePos p.id i
    | none => findInAllPanes rest fullPath

/-- `findInPaneViewList` (i.e. `_doFindInViewList` with method
`findInViewList`): `undef` models the JS `undefined` returned when a
concrete pane id is not in the registry. -/
def findInPaneViewList (s : MVM) (paneId : String) (fullPath : File) : FindRes :=
  if paneId = ALL_PANES then findInAllPanes s.paneViews fullPath
  else
    match _getPaneFromPaneId s paneId with
    | some pane =>
      match pane.findInViewList fullPath with
      | some i => FindRes.idx i
      | none => FindRes.notFound
    | none => FindRes.undef

/-- `getPaneIdForPath`: the pane id of the first pane whose view list
contains the path, `null` if none does. -/
def getPaneIdForPath (s : MVM) (fullPath : File) : Option String :=
  match findInPaneViewList s ALL_PANES fullPath with
  | FindRes.panePos paneId _ => some paneId
  | _ => none

/-- `getCurrentlyViewedFileForPane` (collapsing the JS `undefined` for an
unknown pane and a `null` currently-viewed file into `none`). -/
def getCurrentlyViewedFileForPane (s : MVM) (paneId : String) : Option File :=
  match _getPaneFromPaneId s paneId with
  | some pane => pane.currentFile
  | none => none

/-- Result of `Pane.reorderItem`. -/
inductive ReorderResult where
  | itemFoundNeedsSort
  | itemFound
  | itemNotFound
deriving DecidableEq, Repr

/-- Modelled from the spec: `Pane.reorderItem` reports whether the file
is already in the pane's view list (possibly needing a re-sort to honour
a requested position) or not found.  `addToPaneViewList` only reaches it
for files open in no pane, so the found branches are minimally modelled
as leaving the pane unchanged. -/
def Pane.reorderItem (p : Pane) (f : File) (index : Option Nat) (force : Bool) :
    ReorderResult × Pane :=
  if f ∈ p.viewList then
    (if force ∨ index.isSome then (ReorderResult.itemFoundNeedsSort, p)
     else (ReorderResult.itemFound, p))
  else (ReorderResult.itemNotFound, p)

/-- Modelled from the spec: `Pane.addToViewList` inserts the file at the
given position (default: append; an out-of-range position appends), adds
it to the MRU ordering, and returns the index it was inserted at. -/
def Pane.addToViewList (p : Pane) (f : File) (index : Option Nat) : Pane × Nat :=
  match index with
  | some i =>
    if i ≤ p.viewList.length then
      ({ p with viewList := p.viewList.take i ++ f :: p.viewList.drop i
              , mruList := p.mruList ++ [f] }, i)
    else
      ({ p with viewList := p.viewList ++ [f], mruList := p.mruList ++ [f] },
       p.viewList.length)
  | none =>
    ({ p with viewList := p.viewList ++ [f], mruList := p.mruList ++ [f] },
     p.viewList.length)

/-- `addToPaneViewList`: no-op when the pane id is unknown, the file
cannot be opened by the editor (custom viewer), or the file is already
open in some pane; otherwise reorder-or-insert, emitting
`paneViewListSort` or `paneViewListAdd`. -/
def addToPaneViewList (env : Env) (s : MVM) (paneId : String) (file : File)
    (index : Option Nat) (force : Bool) : MVM × List Ev :=
  match _getPaneFromPaneId s paneId with
  | none => (s, [])
  | some pane =>
    if ¬ env.canOpenFile file ∨ (getPaneIdForPath s file).isSome then (s, [])
    else
      match pane.reorderItem file index force with
      | (ReorderResult.itemFoundNeedsSort, pane') =>
        (setPane s pane', [Ev.paneViewListSort pane.id])
      | (ReorderResult.itemFound, pane') => (setPane s pane', [])
      | (ReorderResult.itemNotFound, _) =>
        let r := pane.addToViewList file index
        (setPane s r.1, [Ev.paneViewListAdd file r.2 pane.id])

/-- Modelled from the spec: the filtering done by `Pane.addListToViewList`
— "same semantics as Add but for many files, deduplicated against all
panes": a file is kept iff the editor can open it and it is open in no
pane, counting the files kept earlier in the same batch. -/
def addListFilter (canOpen : File → Bool) (occ : File → Bool) : List File → List File
  | [] => []
  | f :: rest =>
    if canOpen f ∧ ¬ occ f then
      f :: addListFilter canOpen (fun g => occ g || g == f) rest
    else addListFilter canOpen occ rest

/-- Whether some pane's view list contains the file. -/
def occupied (s : MVM) (f : File) : Bool :=
  s.paneViews.any (fun pr => pr.2.viewList.contains f)

/-- `addListToPaneViewList`: no-op on an unknown pane id; otherwise the
pane appends the admissible files (`Pane.addListToViewList`, modelled by
`addListFilter`) and a single `paneViewListAddList` carrying the unique
file list is emitted. -/
def addListToPaneViewList (env : Env) (s : MVM) (paneId : String)
    (fileList : List File) : MVM × List Ev :=
  match _getPaneFromPaneId s paneId with
  | none => (s, [])
  | some pane =>
    let u := addListFilter env.canOpenFile (fun f => occupied s f) fileList
    let pane' : Pane :=
      { pane with viewList := pane.viewList ++ u, mruList := pane.mruList ++ u }
    (setPane s pane', [Ev.paneViewListAddList u pane.id])

/-- Modelled from the spec: `Pane.removeFromViewList` detaches the file
from the pane's view list (and its MRU ordering) when present, reporting
whether something was removed; the currently viewed state is unaffected. -/
def Pane.removeFromViewList (p : Pane) (f : File) : Pane × Bool :=
  if p.viewList.contains f then
    ({ p with viewList := p.viewList.erase f, mruList := p.mruList.erase f }, true)
  else (p, false)

/-- `_removeFromPaneViewList`: emits `paneViewListRemove` only when the
pane reported an actual removal. -/
def _removeFromPaneViewList (s : MVM) (paneId : String) (file : File)
    (suppressRedraw : Bool) : MVM × List Ev :=
  match _getPaneFromPaneId s paneId with
  | none => (s, [])
  | some pane =>
    let r := pane.removeFromViewList file
    if r.2 then (setPane s r.1, [Ev.paneViewListRemove file suppressRedraw pane.id])
    else (s, [])

/-- Fold a per-pane operation over the registry (`_.forEach(_paneViews, ...)`),
threading the state and concatenating events, calling each pane by its id
as the source does. -/
def forEachPane (s : MVM) (op : MVM → String → MVM × List Ev) : MVM × List Ev :=
  s.paneViews.foldl
    (fun acc pr =>
      let r := op acc.1 pr.2.id
      (r.1, acc.2 ++ r.2))
    (s, [])

/-- `removeFromPaneViewList`: for `ALL_PANES`, apply the private removal
to every pane; otherwise to the one requested. -/
def removeFromPaneViewList (s : MVM) (paneId : String) (file : File)
    (suppressRedraw : Bool) : MVM × List Ev :=
  if paneId = ALL_PANES then
    forEachPane s (fun st pid => _removeFromPaneViewList st pid file suppressRedraw)
  else _removeFromPaneViewList s paneId file suppressRedraw

/-- Modelled from the spec: `Pane.removeListFromViewList` removes the
files of the list present in the pane's view list and returns them (in
view-list order); removal notifications are emitted "only when something
was actually removed", so it returns `none` when no file was removed. -/
def Pane.removeListFromViewList (p : Pane) (list : List File) : Pane × Option (List File) :=
  let removed := p.viewList.filter (fun f => list.contains f)
  if removed.isEmpty then (p, none)
  else
    ({ p with viewList := p.viewList.filter (fun f => ¬ list.contains f)
            , mruList := p.mruList.filter (fun f => ¬ list.contains f) },
     some removed)

/-- `_removeListFromPaneViewList`: emits `paneViewListRemoveList` only
when the pane returned a (truthy) removed list. -/
def _removeListFromPaneViewList (s : MVM) (paneId : String) (list : List File) :
    MVM × List Ev :=
  match _getPaneFromPaneId s paneId with
  | none => (s, [])
  | some pane =>
    let r := pane.removeListFromViewList list
    match r.2 with
    | none => (s, [])
    | some fileList =>
      (setPane s r.1, [Ev.paneViewListRemoveList fileList pane.id])

/-- `removeListFromPaneViewList`. -/
def removeListFromPaneViewList (s : MVM) (paneId : String) (list : List File) :
    MVM × List Ev :=
  if paneId = ALL_PANES then
    forEachPane s (fun st pid => _removeListFromPaneViewList st pid list)
  else _removeListFromPaneViewList s paneId list

/-- Modelled from the spec: `Pane.removeAllFromViewList` empties the view
list and MRU ordering, returning the removed files, `none` (falsy) when
the list was already empty. -/
def Pane.removeAllFromViewList (p : Pane) : Pane × Option (List File) :=
  if p.viewList.isEmpty then (p, none)
  else ({ p with viewList := [], mruList := [] }, some p.viewList)

/-- `_removeAllFromPaneViewList`. -/
def _removeAllFromPaneViewList (s : MVM) (paneId : String) : MVM × List Ev :=
  match _getPaneFromPaneId s paneId with
  | none => (s, [])
  | some pane =>
    let r := pane.removeAllFromViewList
    match r.2 with
    | none => (s, [])
    | some fileList =>
      (setPane s r.1, [Ev.paneViewListRemoveList fileList pane.id])

/-- `removeAllFromPaneViewList`. -/
def removeAllFromPaneViewList (s : MVM) (paneId : String) : MVM × List Ev :=
  if paneId = ALL_PANES then
    forEachPane s (fun st pid => _removeAllFromPaneViewList st pid)
  else _removeAllFromPaneViewList s paneId

/-- Modelled from the spec: `Pane.makeViewMostRecent` moves the file to
the head of the MRU ordering without affecting insertion order. -/
def Pane.makeViewMostRecent (p : Pane) (f : File) : Pane :=
  if p.mruList.contains f then { p with mruList := f :: p.mruList.erase f } else p

/-- `makePaneViewMostRecent`. -/
def makePaneViewMostRecent (s : MVM) (paneId : String) (file : File) : MVM :=
  match _getPaneFromPaneId s paneId with
  | some pane => setPane s (pane.makeViewMostRecent file)
  | none => s

/-- Modelled from the spec: `Pane.traverseViewListByMRU` returns the file
adjacent (in the given direction, wrapping around) to the currently
viewed one in MRU order; nothing on an empty list; the head of the MRU
order when there is no current file to start from. -/
def Pane.traverseViewListByMRU (p : Pane) (direction : Int) : Option File :=
  match p.currentFile with
  | some c =>
    match p.mruList.findIdx? (fun g => g == c) with
    | some i => p.mruList.get? (((i : Int) + direction).emod (p.mruList.length)).toNat
    | none => p.mruList.head?
  | none => p.mruList.head?

/-- `traversePaneViewListByMRU`: `null` when the pane id is unknown. -/
def traversePaneViewListByMRU (s : MVM) (paneId : String) (direction : Int) :
    Option File :=
  match _getPaneFromPaneId s paneId with
  | some pane => pane.traverseViewListByMRU direction
  | none => none

/-- Modelled from the spec: `Pane.doRemoveView` detaches the file (and
destroys its view); the view list, MRU order, and — when it was showing —
the currently viewed file drop it. -/
def Pane.doRemoveView (p : Pane) (f : File) : Pane :=
  { p with viewList := p.viewList.erase f
         , mruList := p.mruList.erase f
         , currentFile := if p.currentFile = some f then none else p.currentFile }

/-- The body shared by both branches of `doClose` once a concrete pane id
is in hand: `none` models the `TypeError` from dereferencing the `null`
pane when the id is not in the registry. -/
def doCloseInPane (s : MVM) (paneId : String) (file : File) : Option (MVM × List Ev) :=
  match _getPaneFromPaneId s paneId with
  | none => none
  | some pane =>
    let dispatchEvent := (pane.findInViewList file).isSome
    let pane' := pane.doRemoveView file
    some (setPane s pane',
          if dispatchEvent then [Ev.paneViewListRemove file false pane.id] else [])

/-- `doClose`: for `ALL_PANES`, first locate the pane holding the file
(early return when none does); then remove from the concrete pane,
emitting `paneViewListRemove` iff the file was in its view list. -/
def doClose (s : MVM) (paneId : String) (file : File) : Option (MVM × List Ev) :=
  if paneId = ALL_PANES then
    match findInPaneViewList s ALL_PANES file with
    | FindRes.panePos pid _ => doCloseInPane s pid file
    | _ => some (s, [])
  else doCloseInPane s paneId file

/-- Modelled from the spec: `Pane.doRemoveAllViews` destroys every view,
leaving the lists empty and nothing viewed. -/
def Pane.doRemoveAllViews (p : Pane) : Pane :=
  { p with viewList := [], mruList := [], currentFile := none }

/-- `doCloseAll`: for each targeted pane, snapshot its view list, remove
all views, and emit `paneViewListRemoveList` unconditionally.  `none`
models the `TypeError` thrown when a concrete pane id is not in the
registry (the pane is dereferenced without a check). -/
def doCloseAll (s : MVM) (paneId : String) : Option (MVM × List Ev) :=
  if paneId = ALL_PANES then
    some (s.paneViews.foldl
      (fun acc pr =>
        let fileList := pr.2.viewList
        (setPane acc.1 pr.2.doRemoveAllViews,
         acc.2 ++ [Ev.paneViewListRemoveList fileList pr.2.id]))
      (s, []))
  else
    match _getPaneFromPaneId s paneId with
    | none => none
    | some pane =>
      some (setPane s pane.doRemoveAllViews,
            [Ev.paneViewListRemoveList pane.viewList pane.id])

/-- Modelled from the spec: `Pane.doRemoveViews` removes those files of
the list it holds, returning the closed ones (in view-list order). -/
def Pane.doRemoveViews (p : Pane) (fileList : List File) : Pane × List File :=
  ({ p with viewList := p.viewList.filter (fun f => ¬ fileList.contains f)
          , mruList := p.mruList.filter (fun f => ¬ fileList.contains f)
          , currentFile :=
              match p.currentFile with
              | some c => if fileList.contains c then none else some c
              | none => none },
   p.viewList.filter (fun f => fileList.contains f))

/-- `doCloseList`: emits `paneViewListRemoveList` unconditionally for each
targeted pane; `none` models the `TypeError` on an unknown concrete pane
id. -/
def doCloseList (s : MVM) (paneId : String) (fileList : List File) :
    Option (MVM × List Ev) :=
  if paneId = ALL_PANES then
    some (s.paneViews.foldl
      (fun acc pr =>
        let r := pr.2.doRemoveViews fileList
        (setPane acc.1 r.1, acc.2 ++ [Ev.paneViewListRemoveList r.2 pr.2.id]))
      (s, []))
  else
    match _getPaneFromPaneId s paneId with
    | none => none
    | some pane =>
      let r := pane.doRemoveViews fileList
      some (setPane s r.1, [Ev.paneViewListRemoveList r.2 pane.id])

/-- `_createPaneIfNecessary`: append a fresh pane under the id unless the
key already exists, emitting `paneCreated`. -/
def _createPaneIfNecessary (s : MVM) (paneId : String) : MVM × List Ev :=
  if (s.paneViews.lookup paneId).isSome then (s, [])
  else ({ s with paneViews := s.paneViews ++ [(paneId, mkPane paneId)] },
        [Ev.paneCreated paneId])

/-- Modelled from the spec: `Pane.mergeWith` merges the other pane's
ordered file list onto the end of this pane's (contents appended). -/
def Pane.mergeWith (p other : Pane) : Pane :=
  { p with viewList := p.viewList ++ other.viewList
         , mruList := p.mruList ++ other.mruList }

/-- `_doUnsplit`: when the second pane exists, merge it into the first,
emit the removal list, reassign the active pane to the first pane, then
destroy and delete the second pane, clear the orientation and emit the
remaining notifications.  The outer `none` models the `TypeError` thrown
in the (unreachable) situation where `FIRST_PANE` is not in the registry
while `SECOND_PANE` is. -/
def _doUnsplit (s : MVM) : Option (MVM × List Ev) :=
  match s.paneViews.lookup SECOND_PANE with
  | none => some (s, [])
  | some secondPane =>
    match s.paneViews.lookup FIRST_PANE with
    | none => none
    | some firstPane =>
      let fileList := secondPane.viewList
      let s1 := setPane s (firstPane.mergeWith secondPane)
      let r2 := setActivePaneId s1 firstPane.id
      let s3 : MVM :=
        { r2.1 with
            paneViews := r2.1.paneViews.filter (fun pr => ¬ pr.1 == SECOND_PANE)
          , orientation := none }
      some (s3,
        [Ev.paneViewListRemoveList fileList secondPane.id]
          ++ r2.2
          ++ [Ev.paneDestroyed secondPane.id,
              Ev.paneViewListAddList fileList firstPane.id,
              Ev.paneLayoutChange none])

/-- `_doSplit`: create the second pane if necessary, set the orientation,
emit `paneLayoutChange`. -/
def _doSplit (s : MVM) (o : Orient) : MVM × List Ev :=
  let r := _createPaneIfNecessary s SECOND_PANE
  ({ r.1 with orientation := some o }, r.2 ++ [Ev.paneLayoutChange (some o)])

/-- `_handleSplitVertically`: toggle — unsplit when already vertical. -/
def _handleSplitVertically (s : MVM) : Option (MVM × List Ev) :=
  if s.orientation = some Orient.vertical then _doUnsplit s
  else some (_doSplit s Orient.vertical)

/-- `_handleSplitHorizontially`: toggle — unsplit when already horizontal. -/
def _handleSplitHorizontially (s : MVM) : Option (MVM × List Ev) :=
  if s.orientation = some Orient.horizontal then _doUnsplit s
  else some (_doSplit s Orient.horizontal)

/-- Modelled from the spec: `EditorManager.doOpenDocument` attaches an
editing surface for the document to the pane (spec section 6); its
pane-visible effect is that the pane's currently viewed file becomes the
document's file. -/
def doOpenDocument (s : MVM) (paneKey : String) (f : File) : MVM :=
  match s.paneViews.lookup paneKey with
  | some pane => setPane s { pane with currentFile := some f }
  | none => s

/-- `doEdit`: redirect to the pane already holding the document's file
(activating it); bail out on an unknown pane; add to the view list when
the document is untitled or outside the project; attach the editor; emit
`currentFileChanged` when the pane is the active one; make the file most
recent.  A document is represented by its file path, its untitled status
coming from the environment. -/
def doEdit (env : Env) (s : MVM) (paneId : String) (docFile : File) : MVM × List Ev :=
  let redirect :
      String × MVM × List Ev :=
    match getPaneIdForPath s docFile with
    | some currentPaneId =>
      let r := setActivePaneId s currentPaneId
      (currentPaneId, r.1, r.2)
    | none => (paneId, s, [])
  let paneId1 := redirect.1
  let s1 := redirect.2.1
  let evs0 := redirect.2.2
  match _getPaneFromPaneId s1 paneId1 with
  | none => (s1, evs0)
  | some pane =>
    let radd :=
      if env.isUntitledDoc docFile ∨ ¬ env.isWithinProject docFile then
        addToPaneViewList env s1 paneId1 docFile none false
      else (s1, [])
    let s2 := doOpenDocument radd.1 pane.id docFile
    let evs2 :=
      if pane.id = s2.activePaneId then [Ev.currentFileChanged (some docFile) pane.id]
      else []
    let s3 := makePaneViewMostRecent s2 paneId1 docFile
    (s3, evs0 ++ radd.2 ++ evs2)

/-- `doOpen`: reject `"bad argument"` without a file; redirect to (and
activate) the pane already holding the path; resolve through `doEdit`
when a document is already open, or after a successful load when the
editor can open the file; otherwise reject (load failure, or the
custom-viewer not-yet-implemented diagnostic). -/
def doOpen (env : Env) (s : MVM) (paneId : String) (file : Option File) :
    MVM × List Ev × OpenOutcome :=
  match file with
  | none => (s, [], OpenOutcome.rejected RejectReason.badArgument)
  | some f =>
    let docOpen := env.getOpenDocumentForPath f
    let redirect : String × MVM × List Ev :=
      match getPaneIdForPath s f with
      | some currentPaneId =>
        let r := setActivePaneId s currentPaneId
        (currentPaneId, r.1, r.2)
      | none => (paneId, s, [])
    let paneId1 := redirect.1
    let s1 := redirect.2.1
    let evs0 := redirect.2.2
    if docOpen then
      let r := doEdit env s1 paneId1 f
      (r.1, evs0 ++ r.2, OpenOutcome.resolvedDoc f)
    else if env.canOpenFile f then
      match env.getDocumentForPath f with
      | Except.ok _ =>
        let r := doEdit env s1 paneId1 f
        (r.1, evs0 ++ r.2, OpenOutcome.resolvedDoc f)
      | Except.error e =>
        (s1, evs0, OpenOutcome.rejected (RejectReason.fileError e))
    else
      (s1, evs0, OpenOutcome.rejected RejectReason.customViewerNotImplemented)

/-- The operations a client can drive the module with. -/
inductive Op where
  | addToPaneViewList (env : Env) (paneId : String) (file : File)
      (index : Option Nat) (force : Bool)
  | addListToPaneViewList (env : Env) (paneId : String) (fileList : List File)
  | removeFromPaneViewList (paneId : String) (file : File) (suppressRedraw : Bool)
  | removeListFromPaneViewList (paneId : String) (list : List File)
  | removeAllFromPaneViewList (paneId : String)
  | makePaneViewMostRecent (paneId : String) (file : File)
  | setActivePaneId (paneId : String)
  | doEdit (env : Env) (paneId : String) (docFile : File)
  | doOpen (env : Env) (paneId : String) (file : Option File)
  | doClose (paneId : String) (file : File)
  | doCloseAll (paneId : String)
  | doCloseList (paneId : String) (fileList : List File)
  | splitVertically
  | splitHorizontally

/-- One step of the module: `none` when the operation raises a JS
`TypeError`. -/
def applyOp (s : MVM) : Op → Option (MVM × List Ev)
  | Op.addToPaneViewList env paneId file index force =>
    some (addToPaneViewList env s paneId file index force)
  | Op.addListToPaneViewList env paneId fileList =>
    some (addListToPaneViewList env s paneId fileList)
  | Op.removeFromPaneViewList paneId file sup =>
    some (removeFromPaneViewList s paneId file sup)
  | Op.removeListFromPaneViewList paneId list =>
    some (removeListFromPaneViewList s paneId list)
  | Op.removeAllFromPaneViewList paneId =>
    some (removeAllFromPaneViewList s paneId)
  | Op.makePaneViewMostRecent paneId file =>
    some (makePaneViewMostRecent s paneId file, [])
  | Op.setActivePaneId paneId => some (setActivePaneId s paneId)
  | Op.doEdit env paneId docFile => some (doEdit env s paneId docFile)
  | Op.doOpen env paneId file =>
    let r := doOpen env s paneId file
    some (r.1, r.2.1)
  | Op.doClose paneId file => doClose s paneId file
  | Op.doCloseAll paneId => doCloseAll s paneId
  | Op.doCloseList paneId fileList => doCloseList s paneId fileList
  | Op.splitVertically => _handleSplitVertically s
  | Op.splitHorizontally => _handleSplitHorizontially s

/-- The states reachable from the initial state by completed (non-throwing)
operations. -/
inductive Reachable : MVM → Prop where
  | init : Reachable initialState
  | step {s : MVM} {op : Op} {s' : MVM} {evs : List Ev} :
      Reachable s → applyOp s op = some (s', evs) → Reachable s'

/-- The concatenation of all panes' view lists, in registry order. -/
def allFiles (s : MVM) : List File :=
  (s.paneViews.map (fun pr => pr.2.viewList)).flatten

/-- The state invariant: the registry holds the first pane, alone or
followed by the second; the active pane id is a registry key; each pane's
recorded id is its key; no file appears twice across (or within) the
panes' view lists; each pane's MRU ordering is a permutation of its view
list. -/
def StateInv (s : MVM) : Prop :=
  (s.paneViews.map Prod.fst = [FIRST_PANE]
    ∨ s.paneViews.map Prod.fst = [FIRST_PANE, SECOND_PANE])
  ∧ (s.paneViews.lookup s.activePaneId).isSome = true
  ∧ (∀ pr ∈ s.paneViews, pr.2.id = pr.1)
  ∧ (allFiles s).Nodup
  ∧ (∀ pr ∈ s.paneViews, pr.2.mruList.Perm pr.2.viewList)

instance (s : MVM) : Decidable (StateInv s) := by
  unfold StateInv
  infer_instance

theorem lookup_isSome_of_mem {l : List (String × Pane)} {k : String} {p : Pane}
    (h : (k, p) ∈ l) : (l.lookup k).isSome = true := by
  induction l with
  | nil => simp at h
  | cons pr rest ih =>
    rw [List.mem_cons] at h
    rcases h with h | h
    · simp [List.lookup, ← h]
    · by_cases hk : k == pr.1
      · simp [List.lookup, hk]
      · simpa [List.lookup, hk] using ih h

theorem mem_of_lookup_eq_some {l : List (String × Pane)} {k : String} {p : Pane}
    (h : l.lookup k = some p) : (k, p) ∈ l := by
  induction l with
  | nil => simp [List.lookup] at h
  | cons pr rest ih =>
    rw [List.mem_cons]
    by_cases hk : k == pr.1
    · simp [List.lookup, hk] at h
      have hkk : k = pr.1 := by simpa using hk
      exact Or.inl (by rw [hkk, ← h])
    · simp [List.lookup, hk] at h
      exact Or.inr (ih h)

theorem findIdx?_beq_eq_none_iff {l : List File} {f : File} :
    l.findIdx? (fun g => g == f) = none ↔ f ∉ l := by
  induction l with
  | nil => simp
  | cons a rest ih =>
    by_cases ha : a == f
    · have : a = f := by simpa using ha
      simp [List.findIdx?_cons, ha, this]
    · have : ¬ f = a := fun h => ha (by simp [h])
      simp [List.findIdx?_cons, ha, ih, this]

theorem mem_of_findIdx?_beq_eq_some {l : List File} {f : File} {i : Nat}
    (h : l.findIdx? (fun g => g == f) = some i) : f ∈ l := by
  by_contra hf
  rw [findIdx?_beq_eq_none_iff.2 hf] at h
  exact Option.noConfusion h

theorem first_ne_second : FIRST_PANE ≠ SECOND_PANE := by decide

theorem first_beq_second : (FIRST_PANE == SECOND_PANE) = false := by decide

theorem second_beq_first : (SECOND_PANE == FIRST_PANE) = false := by decide

theorem second_ne_first : SECOND_PANE ≠ FIRST_PANE := by decide

theorem list_eq_of_map_fst_single {l : List (String × Pane)} {k : String}
    (h : l.map Prod.fst = [k]) : ∃ p, l = [(k, p)] := by
  match l, h with
  | [(k', p)], h =>
    simp at h
    exact ⟨p, by rw [h]⟩

theorem list_eq_of_map_fst_pair {l : List (String × Pane)} {k1 k2 : String}
    (h : l.map Prod.fst = [k1, k2]) : ∃ p q, l = [(k1, p), (k2, q)] := by
  match l, h with
  | [(k1', p), (k2', q)], h =>
    simp at h
    exact ⟨p, q, by rw [h.1, h.2]⟩

theorem shape_of_inv {s : MVM} (h : StateInv s) :
    (∃ p1, s.paneViews = [(FIRST_PANE, p1)] ∧ p1.id = FIRST_PANE
      ∧ p1.mruList.Perm p1.viewList ∧ p1.viewList.Nodup
      ∧ s.activePaneId = FIRST_PANE)
    ∨ (∃ p1 p2, s.paneViews = [(FIRST_PANE, p1), (SECOND_PANE, p2)]
      ∧ p1.id = FIRST_PANE ∧ p2.id = SECOND_PANE
      ∧ p1.mruList.Perm p1.viewList ∧ p2.mruList.Perm p2.viewList
      ∧ (p1.viewList ++ p2.viewList).Nodup
      ∧ (s.activePaneId = FIRST_PANE ∨ s.activePaneId = SECOND_PANE)) := by
  obtain ⟨hshape, hact, hid, hnd, hperm⟩ := h
  rcases hshape with hshape | hshape
  · left
    obtain ⟨p1, hl⟩ := list_eq_of_map_fst_single hshape
    rw [hl] at hid hperm hact
    simp only [allFiles, hl] at hnd
    refine ⟨p1, hl, hid (FIRST_PANE, p1) (by simp), hperm (FIRST_PANE, p1) (by simp),
      by simpa using hnd, ?_⟩
    by_contra hne
    simp [List.lookup,
      show (s.activePaneId == FIRST_PANE) = false from by simpa using hne] at hact
  · right
    obtain ⟨p1, p2, hl⟩ := list_eq_of_map_fst_pair hshape
    rw [hl] at hid hperm hact
    simp only [allFiles, hl] at hnd
    refine ⟨p1, p2, hl, hid (FIRST_PANE, p1) (by simp), hid (SECOND_PANE, p2) (by simp),
      hperm (FIRST_PANE, p1) (by simp), hperm (SECOND_PANE, p2) (by simp),
      by simpa using hnd, ?_⟩
    by_cases hf : s.activePaneId = FIRST_PANE
    · exact Or.inl hf
    · by_cases hs2 : s.activePaneId = SECOND_PANE
      · exact Or.inr hs2
      · exfalso
        simp [List.lookup,
          show (s.activePaneId == FIRST_PANE) = false from by simpa using hf,
          show (s.activePaneId == SECOND_PANE) = false from by simpa using hs2] at hact

theorem inv_build_one {p1 : Pane} {act : String} {o : Option Orient}
    (hid : p1.id = FIRST_PANE) (hperm : p1.mruList.Perm p1.viewList)
    (hnd : p1.viewList.Nodup) (hact : act = FIRST_PANE) :
    StateInv ⟨[(FIRST_PANE, p1)], act, o⟩ := by
  refine ⟨Or.inl (by simp), ?_, ?_, ?_, ?_⟩
  · simp [List.lookup, hact]
  · intro pr hpr
    simp at hpr
    rw [hpr]
    exact hid
  · simpa [allFiles] using hnd
  · intro pr hpr
    simp at hpr
    rw [hpr]
    exact hperm

theorem inv_build_two {p1 p2 : Pane} {act : String} {o : Option Orient}
    (hid1 : p1.id = FIRST_PANE) (hid2 : p2.id = SECOND_PANE)
    (hperm1 : p1.mruList.Perm p1.viewList) (hperm2 : p2.mruList.Perm p2.viewList)
    (hnd : (p1.viewList ++ p2.viewList).Nodup)
    (hact : act = FIRST_PANE ∨ act = SECOND_PANE) :
    StateInv ⟨[(FIRST_PANE, p1), (SECOND_PANE, p2)], act, o⟩ := by
  refine ⟨Or.inr (by simp), ?_, ?_, ?_, ?_⟩
  · rcases hact with hact | hact <;>
      simp [List.lookup, hact, second_beq_first]
  · intro pr hpr
    simp at hpr
    rcases hpr with hpr | hpr <;> rw [hpr]
    · exact hid1
    · exact hid2
  · simpa [allFiles] using hnd
  · intro pr hpr
    simp at hpr
    rcases hpr with hpr | hpr <;> rw [hpr]
    · exact hperm1
    · exact hperm2

theorem getPane_one {s : MVM} {p1 : Pane} (hl : s.paneViews = [(FIRST_PANE, p1)])
    (pid : String) :
    _getPaneFromPaneId s pid =
      if resolvePaneId s pid = FIRST_PANE then some p1 else none := by
  unfold _getPaneFromPaneId
  rw [hl]
  by_cases hc : resolvePaneId s pid = FIRST_PANE
  · simp [List.lookup, hc]
  · simp [List.lookup, hc, show (resolvePaneId s pid == FIRST_PANE) = false from
      by simpa using hc]

theorem getPane_two {s : MVM} {p1 p2 : Pane}
    (hl : s.paneViews = [(FIRST_PANE, p1), (SECOND_PANE, p2)]) (pid : String) :
    _getPaneFromPaneId s pid =
      if resolvePaneId s pid = FIRST_PANE then some p1
      else if resolvePaneId s pid = SECOND_PANE then some p2 else none := by
  unfold _getPaneFromPaneId
  rw [hl]
  by_cases hc : resolvePaneId s pid = FIRST_PANE
  · simp [List.lookup, hc]
  · by_cases hc2 : resolvePaneId s pid = SECOND_PANE
    · simp [List.lookup, hc, hc2, second_beq_first, second_ne_first]
    · simp [List.lookup, hc, hc2,
        show (resolvePaneId s pid == FIRST_PANE) = false from by simpa using hc,
        show (resolvePaneId s pid == SECOND_PANE) = false from by simpa using hc2]

theorem setPane_one {s : MVM} {p1 : Pane} (hl : s.paneViews = [(FIRST_PANE, p1)])
    {p : Pane} (hid : p.id = FIRST_PANE) :
    setPane s p = { s with paneViews := [(FIRST_PANE, p)] } := by
  unfold setPane
  rw [hl]
  simp [hid]

theorem setPane_two_first {s : MVM} {p1 p2 : Pane}
    (hl : s.paneViews = [(FIRST_PANE, p1), (SECOND_PANE, p2)])
    {p : Pane} (hid : p.id = FIRST_PANE) :
    setPane s p = { s with paneViews := [(FIRST_PANE, p), (SECOND_PANE, p2)] } := by
  unfold setPane
  rw [hl]
  simp [hid, second_beq_first, second_ne_first]

theorem setPane_two_second {s : MVM} {p1 p2 : Pane}
    (hl : s.paneViews = [(FIRST_PANE, p1), (SECOND_PANE, p2)])
    {p : Pane} (hid : p.id = SECOND_PANE) :
    setPane s p = { s with paneViews := [(FIRST_PANE, p1), (SECOND_PANE, p)] } := by
  unfold setPane
  rw [hl]
  simp [hid, first_beq_second, first_ne_second]

theorem findInAllPanes_cases (l : List (String × Pane)) (f : File) :
    findInAllPanes l f = FindRes.notFound ∨
      ∃ pid i, findInAllPanes l f = FindRes.panePos pid i := by
  induction l with
  | nil => exact Or.inl rfl
  | cons pr rest ih =>
    obtain ⟨k, p⟩ := pr
    unfold findInAllPanes
    cases hfi : p.findInViewList f with
    | none => exact ih
    | some i => exact Or.inr ⟨p.id, i, rfl⟩

theorem findInAllPanes_notFound_iff {l : List (String × Pane)} {f : File} :
    findInAllPanes l f = FindRes.notFound ↔ ∀ pr ∈ l, f ∉ pr.2.viewList := by
  induction l with
  | nil => simp [findInAllPanes]
  | cons pr rest ih =>
    obtain ⟨k, p⟩ := pr
    unfold findInAllPanes
    cases hfi : p.findInViewList f with
    | none =>
      have hnm : f ∉ p.viewList := findIdx?_beq_eq_none_iff.1 hfi
      simp only [ih]
      constructor
      · intro h pr hpr
        rw [List.mem_cons] at hpr
        rcases hpr with hpr | hpr
        · rw [hpr]; exact hnm
        · exact h pr hpr
      · intro h pr hpr
        exact h pr (List.mem_cons_of_mem _ hpr)
    | some i =>
      have hm : f ∈ p.viewList := mem_of_findIdx?_beq_eq_some hfi
      constructor
      · intro h; exact absurd h (by simp)
      · intro h
        exact absurd hm (h (k, p) (List.mem_cons_self _ _))

theorem findInAllPanes_panePos {l : List (String × Pane)} {f : File} {pid : String}
    {i : Nat} (hid : ∀ pr ∈ l, pr.2.id = pr.1)
    (h : findInAllPanes l f = FindRes.panePos pid i) :
    ∃ p, (pid, p) ∈ l ∧ f ∈ p.viewList := by
  induction l with
  | nil => simp [findInAllPanes] at h
  | cons pr rest ih =>
    obtain ⟨k, p⟩ := pr
    unfold findInAllPanes at h
    cases hfi : p.findInViewList f with
    | none =>
      rw [hfi] at h
      obtain ⟨q, hq, hfq⟩ := ih (fun pr hpr => hid pr (List.mem_cons_of_mem _ hpr)) h
      exact ⟨q, List.mem_cons_of_mem _ hq, hfq⟩
    | some j =>
      rw [hfi] at h
      have hke : p.id = k := hid (k, p) (List.mem_cons_self _ _)
      simp at h
      refine ⟨p, ?_, mem_of_findIdx?_beq_eq_some hfi⟩
      rw [← h.1, hke]
      exact List.mem_cons_self _ _

theorem getPaneIdForPath_none_iff {s : MVM} {f : File} :
    getPaneIdForPath s f = none ↔ ∀ pr ∈ s.paneViews, f ∉ pr.2.viewList := by
  unfold getPaneIdForPath findInPaneViewList
  simp only [if_pos rfl]
  rcases findInAllPanes_cases s.paneViews f with hc | ⟨pid, i, hc⟩
  · rw [hc]
    simpa using findInAllPanes_notFound_iff.1 hc
  · rw [hc]
    constructor
    · intro h
      exact absurd h (by simp)
    · intro h
      have := findInAllPanes_notFound_iff.2 h
      rw [this] at hc
      exact absurd hc (by simp)

theorem getPaneIdForPath_some {s : MVM} {f : File} {pid : String}
    (hid : ∀ pr ∈ s.paneViews, pr.2.id = pr.1)
    (h : getPaneIdForPath s f = some pid) :
    ∃ p, (pid, p) ∈ s.paneViews ∧ f ∈ p.viewList := by
  unfold getPaneIdForPath findInPaneViewList at h
  simp only [if_pos rfl] at h
  rcases findInAllPanes_cases s.paneViews f with hc | ⟨pid', i, hc⟩
  · rw [hc] at h
    exact absurd h (by simp)
  · rw [hc] at h
    simp at h
    rw [← h]
    exact findInAllPanes_panePos hid hc

theorem lookup_one_some {s : MVM} {p1 : Pane} (hl : s.paneViews = [(FIRST_PANE, p1)])
    {k : String} {pane : Pane} (hp : s.paneViews.lookup k = some pane) :
    pane = p1 ∧ k = FIRST_PANE := by
  rw [hl] at hp
  by_cases hk : k = FIRST_PANE
  · simp [List.lookup, hk] at hp
    exact ⟨hp.symm, hk⟩
  · simp [List.lookup, show (k == FIRST_PANE) = false from by simpa using hk] at hp

theorem lookup_two_some {s : MVM} {p1 p2 : Pane}
    (hl : s.paneViews = [(FIRST_PANE, p1), (SECOND_PANE, p2)])
    {k : String} {pane : Pane} (hp : s.paneViews.lookup k = some pane) :
    (pane = p1 ∧ k = FIRST_PANE) ∨ (pane = p2 ∧ k = SECOND_PANE) := by
  rw [hl] at hp
  by_cases hk : k = FIRST_PANE
  · simp [List.lookup, hk] at hp
    exact Or.inl ⟨hp.symm, hk⟩
  · by_cases hk2 : k = SECOND_PANE
    · simp [List.lookup, hk2, second_beq_first] at hp
      exact Or.inr ⟨hp.symm, hk2⟩
    · simp [List.lookup, show (k == FIRST_PANE) = false from by simpa using hk,
        show (k == SECOND_PANE) = false from by simpa using hk2] at hp

theorem getPane_one_some {s : MVM} {p1 : Pane} (hl : s.paneViews = [(FIRST_PANE, p1)])
    {pid : String} {pane : Pane} (hp : _getPaneFromPaneId s pid = some pane) :
    pane = p1 ∧ resolvePaneId s pid = FIRST_PANE := by
  rw [getPane_one hl] at hp
  by_cases hc : resolvePaneId s pid = FIRST_PANE
  · rw [if_pos hc] at hp
    exact ⟨(Option.some.injEq _ _ ▸ hp).symm, hc⟩
  · rw [if_neg hc] at hp
    exact absurd hp (by simp)

theorem getPane_two_some {s : MVM} {p1 p2 : Pane}
    (hl : s.paneViews = [(FIRST_PANE, p1), (SECOND_PANE, p2)])
    {pid : String} {pane : Pane} (hp : _getPaneFromPaneId s pid = some pane) :
    (pane = p1 ∧ resolvePaneId s pid = FIRST_PANE)
    ∨ (pane = p2 ∧ resolvePaneId s pid = SECOND_PANE) := by
  rw [getPane_two hl] at hp
  by_cases hc : resolvePaneId s pid = FIRST_PANE
  · rw [if_pos hc] at hp
    exact Or.inl ⟨(Option.some.injEq _ _ ▸ hp).symm, hc⟩
  · rw [if_neg hc] at hp
    by_cases hc2 : resolvePaneId s pid = SECOND_PANE
    · rw [if_pos hc2] at hp
      exact Or.inr ⟨(Option.some.injEq _ _ ▸ hp).symm, hc2⟩
    · rw [if_neg hc2] at hp
      exact absurd hp (by simp)

theorem nodup_append_fresh {u a : List File} (hu : u.Nodup) (ha : a.Nodup)
    (hf : ∀ f ∈ u, f ∉ a) : (u ++ a).Nodup :=
  List.nodup_append.2 ⟨hu, ha, fun f hfu => hf f hfu⟩

theorem StateInv.setPane_add {s : MVM} (h : StateInv s) {k : String}
    {pane pane' : Pane} {u : List File}
    (hp : s.paneViews.lookup k = some pane)
    (hid' : pane'.id = pane.id)
    (hperm' : pane'.mruList.Perm pane'.viewList)
    (hu : u.Nodup)
    (hufresh : ∀ f ∈ u, ∀ pr ∈ s.paneViews, f ∉ pr.2.viewList)
    (hv : pane'.viewList.Perm (u ++ pane.viewList)) :
    StateInv (setPane s pane') := by
  rcases shape_of_inv h with ⟨p1, hl, hid1, hpm1, hnd1, hact⟩ |
    ⟨p1, p2, hl, hid1, hid2, hpm1, hpm2, hnd, hact⟩
  · obtain ⟨hpane, -⟩ := lookup_one_some hl hp
    subst hpane
    rw [setPane_one hl (hid'.trans hid1)]
    refine inv_build_one (hid'.trans hid1) hperm' ?_ hact
    refine hv.nodup_iff.2 (nodup_append_fresh hu hnd1 ?_)
    intro f hfu
    exact hufresh f hfu (FIRST_PANE, pane) (by rw [hl]; simp)
  · have hfr1 : ∀ f ∈ u, f ∉ p1.viewList := fun f hfu =>
      hufresh f hfu (FIRST_PANE, p1) (by rw [hl]; simp)
    have hfr2 : ∀ f ∈ u, f ∉ p2.viewList := fun f hfu =>
      hufresh f hfu (SECOND_PANE, p2) (by rw [hl]; simp)
    rcases lookup_two_some hl hp with ⟨hpane, -⟩ | ⟨hpane, -⟩
    · subst hpane
      rw [setPane_two_first hl (hid'.trans hid1)]
      refine inv_build_two (hid'.trans hid1) hid2 hperm' hpm2 ?_ hact
      have hperm : (pane'.viewList ++ p2.viewList).Perm
          ((u ++ pane.viewList) ++ p2.viewList) := hv.append_right _
      refine hperm.nodup_iff.2 ?_
      rw [List.append_assoc]
      refine nodup_append_fresh hu hnd ?_
      intro f hfu
      simp only [List.mem_append]
      rintro (hm | hm)
      · exact hfr1 f hfu hm
      · exact hfr2 f hfu hm
    · subst hpane
      rw [setPane_two_second hl (hid'.trans hid2)]
      refine inv_build_two hid1 (hid'.trans hid2) hpm1 hperm' ?_ hact
      have hperm : (p1.viewList ++ pane'.viewList).Perm
          (p1.viewList ++ (u ++ pane.viewList)) := hv.append_left _
      refine hperm.nodup_iff.2 ?_
      have h2 : (p1.viewList ++ (u ++ pane.viewList)).Perm
          (u ++ (p1.viewList ++ pane.viewList)) := by
        rw [← List.append_assoc, ← List.append_assoc]
        exact List.perm_append_comm.append_right _
      refine h2.nodup_iff.2 ?_
      refine nodup_append_fresh hu hnd ?_
      intro f hfu
      simp only [List.mem_append]
      rintro (hm | hm)
      · exact hfr1 f hfu hm
      · exact hfr2 f hfu hm

theorem StateInv.setPane_sub {s : MVM} (h : StateInv s) {k : String}
    {pane pane' : Pane}
    (hp : s.paneViews.lookup k = some pane)
    (hid' : pane'.id = pane.id)
    (hperm' : pane'.mruList.Perm pane'.viewList)
    (hv : pane'.viewList.Sublist pane.viewList) :
    StateInv (setPane s pane') := by
  rcases shape_of_inv h with ⟨p1, hl, hid1, hpm1, hnd1, hact⟩ |
    ⟨p1, p2, hl, hid1, hid2, hpm1, hpm2, hnd, hact⟩
  · obtain ⟨hpane, -⟩ := lookup_one_some hl hp
    subst hpane
    rw [setPane_one hl (hid'.trans hid1)]
    exact inv_build_one (hid'.trans hid1) hperm' (hnd1.sublist hv) hact
  · rcases lookup_two_some hl hp with ⟨hpane, -⟩ | ⟨hpane, -⟩
    · subst hpane
      rw [setPane_two_first hl (hid'.trans hid1)]
      refine inv_build_two (hid'.trans hid1) hid2 hperm' hpm2 ?_ hact
      exact hnd.sublist (hv.append (List.Sublist.refl _))
    · subst hpane
      rw [setPane_two_second hl (hid'.trans hid2)]
      refine inv_build_two hid1 (hid'.trans hid2) hpm1 hperm' ?_ hact
      exact hnd.sublist ((List.Sublist.refl _).append hv)

theorem addToViewList_spec (p : Pane) (f : File) (i : Option Nat) :
    (p.addToViewList f i).1.id = p.id
    ∧ (p.addToViewList f i).1.mruList = p.mruList ++ [f]
    ∧ (p.addToViewList f i).1.viewList.Perm (f :: p.viewList) := by
  unfold Pane.addToViewList
  rcases i with _ | j
  · exact ⟨rfl, rfl, by simpa using List.perm_append_comm⟩
  · by_cases hj : j ≤ p.viewList.length
    · simp only [if_pos hj]
      refine ⟨by trivial, by trivial, ?_⟩
      have h : (p.viewList.take j ++ f :: p.viewList.drop j).Perm
          (f :: (p.viewList.take j ++ p.viewList.drop j)) := List.perm_middle
      simpa [List.take_append_drop] using h
    · simp only [if_neg hj]
      exact ⟨by trivial, by trivial, by simpa using List.perm_append_comm⟩

theorem inv_addToPaneViewList (env : Env) {s : MVM} (h : StateInv s)
    (pid : String) (f : File) (i : Option Nat) (force : Bool) :
    StateInv (addToPaneViewList env s pid f i force).1 := by
  rcases hgp : _getPaneFromPaneId s pid with _ | pane
  · simp only [addToPaneViewList, hgp]
    exact h
  · have hmem : (resolvePaneId s pid, pane) ∈ s.paneViews := mem_of_lookup_eq_some hgp
    have hpm : pane.mruList.Perm pane.viewList := h.2.2.2.2 _ hmem
    by_cases hg : ¬ env.canOpenFile f ∨ (getPaneIdForPath s f).isSome = true
    · simp only [addToPaneViewList, hgp, if_pos hg]
      exact h
    · push_neg at hg
      have hnone : getPaneIdForPath s f = none :=
        Option.not_isSome_iff_eq_none.1 (by simpa using hg.2)
      have hfresh := getPaneIdForPath_none_iff.1 hnone
      have hfnotin : f ∉ pane.viewList := hfresh _ hmem
      have hguard : ¬ (¬ env.canOpenFile f ∨ (getPaneIdForPath s f).isSome = true) := by
        push_neg
        exact hg
      rw [addToPaneViewList]
      rw [hgp]
      simp only [if_neg hguard, Pane.reorderItem, if_neg hfnotin]
      obtain ⟨hid', hmru', hview'⟩ := addToViewList_spec pane f i
      refine StateInv.setPane_add h hgp hid' ?_ (List.nodup_singleton f) ?_ hview'
      · rw [hmru']
        have hx : (pane.viewList ++ [f]).Perm (f :: pane.viewList) := by
          simpa using List.perm_append_comm
        exact (hpm.append_right [f]).trans (hx.trans hview'.symm)
      · intro g hgu pr hpr
        have : g = f := by simpa using hgu
        rw [this]
        exact hfresh pr hpr

theorem mem_addListFilter {can occ : File → Bool} {fl : List File} {g : File}
    (h : g ∈ addListFilter can occ fl) : can g = true ∧ occ g = false := by
  induction fl generalizing occ with
  | nil => simp [addListFilter] at h
  | cons f rest ih =>
    unfold addListFilter at h
    by_cases hc : can f ∧ ¬ occ f
    · rw [if_pos hc] at h
      rw [List.mem_cons] at h
      rcases h with h | h
      · subst h
        exact ⟨hc.1, by simpa using hc.2⟩
      · have := ih h
        refine ⟨this.1, ?_⟩
        have h2 := this.2
        simp only [Bool.or_eq_false_iff] at h2
        exact h2.1
    · rw [if_neg hc] at h
      exact ih h

theorem addListFilter_nodup (can occ : File → Bool) (fl : List File) :
    (addListFilter can occ fl).Nodup := by
  induction fl generalizing occ with
  | nil => simp [addListFilter]
  | cons f rest ih =>
    unfold addListFilter
    by_cases hc : can f ∧ ¬ occ f
    · rw [if_pos hc]
      refine List.nodup_cons.2 ⟨?_, ih _⟩
      intro hmem
      have := (mem_addListFilter hmem).2
      simp at this
    · rw [if_neg hc]
      exact ih _

theorem occupied_false_iff {s : MVM} {g : File} :
    occupied s g = false ↔ ∀ pr ∈ s.paneViews, g ∉ pr.2.viewList := by
  unfold occupied
  simp

theorem inv_addListToPaneViewList (env : Env) {s : MVM} (h : StateInv s)
    (pid : String) (fl : List File) :
    StateInv (addListToPaneViewList env s pid fl).1 := by
  rcases hgp : _getPaneFromPaneId s pid with _ | pane
  · simp only [addListToPaneViewList, hgp]
    exact h
  · have hmem : (resolvePaneId s pid, pane) ∈ s.paneViews := mem_of_lookup_eq_some hgp
    have hpm : pane.mruList.Perm pane.viewList := h.2.2.2.2 _ hmem
    rw [addListToPaneViewList]
    rw [hgp]
    refine StateInv.setPane_add h hgp rfl ?_ (addListFilter_nodup _ _ _) ?_
      List.perm_append_comm
    · exact hpm.append_right _
    · intro g hgu pr hpr
      have hocc := (mem_addListFilter hgu).2
      exact occupied_false_iff.1 hocc pr hpr

theorem inv_priv_removeFromPaneViewList {s : MVM} (h : StateInv s)
    (pid : String) (f : File) (sup : Bool) :
    StateInv (_removeFromPaneViewList s pid f sup).1 := by
  rcases hgp : _getPaneFromPaneId s pid with _ | pane
  · simp only [_removeFromPaneViewList, hgp]
    exact h
  · have hmem : (resolvePaneId s pid, pane) ∈ s.paneViews := mem_of_lookup_eq_some hgp
    have hpm : pane.mruList.Perm pane.viewList := h.2.2.2.2 _ hmem
    rw [_removeFromPaneViewList]
    rw [hgp]
    unfold Pane.removeFromViewList
    by_cases hc : pane.viewList.contains f
    · simp only [if_pos hc]
      exact StateInv.setPane_sub h hgp rfl (hpm.erase f) (List.erase_sublist f _)
    · simp only [if_neg hc]
      exact h

theorem inv_forEachPane {s : MVM} (h : StateInv s)
    (op : MVM → String → MVM × List Ev)
    (hop : ∀ t pid, StateInv t → StateInv (op t pid).1) :
    StateInv (forEachPane s op).1 := by
  unfold forEachPane
  have hgen : ∀ (l : List (String × Pane)) (acc : MVM × List Ev), StateInv acc.1 →
      StateInv (l.foldl
        (fun acc pr => ((op acc.1 pr.2.id).1, acc.2 ++ (op acc.1 pr.2.id).2)) acc).1 := by
    intro l
    induction l with
    | nil => intro acc hacc; exact hacc
    | cons pr rest ih =>
      intro acc hacc
      exact ih _ (hop acc.1 pr.2.id hacc)
  exact hgen s.paneViews (s, []) h

theorem inv_removeFromPaneViewList {s : MVM} (h : StateInv s)
    (pid : String) (f : File) (sup : Bool) :
    StateInv (removeFromPaneViewList s pid f sup).1 := by
  unfold removeFromPaneViewList
  by_cases hc : pid = ALL_PANES
  · rw [if_pos hc]
    exact inv_forEachPane h _ (fun t p ht => inv_priv_removeFromPaneViewList ht p f sup)
  · rw [if_neg hc]
    exact inv_priv_removeFromPaneViewList h pid f sup

theorem inv_priv_removeListFromPaneViewList {s : MVM} (h : StateInv s)
    (pid : String) (list : List File) :
    StateInv (_removeListFromPaneViewList s pid list).1 := by
  rcases hgp : _getPaneFromPaneId s pid with _ | pane
  · simp only [_removeListFromPaneViewList, hgp]
    exact h
  · have hmem : (resolvePaneId s pid, pane) ∈ s.paneViews := mem_of_lookup_eq_some hgp
    have hpm : pane.mruList.Perm pane.viewList := h.2.2.2.2 _ hmem
    rw [_removeListFromPaneViewList]
    rw [hgp]
    unfold Pane.removeListFromViewList
    by_cases hc : (pane.viewList.filter (fun f => list.contains f)).isEmpty
    · simp only [if_pos hc]
      exact h
    · simp only [if_neg hc]
      exact StateInv.setPane_sub h hgp rfl (hpm.filter _) (List.filter_sublist _)

theorem inv_removeListFromPaneViewList {s : MVM} (h : StateInv s)
    (pid : String) (list : List File) :
    StateInv (removeListFromPaneViewList s pid list).1 := by
  unfold removeListFromPaneViewList
  by_cases hc : pid = ALL_PANES
  · rw [if_pos hc]
    exact inv_forEachPane h _ (fun t p ht => inv_priv_removeListFromPaneViewList ht p list)
  · rw [if_neg hc]
    exact inv_priv_removeListFromPaneViewList h pid list

theorem inv_priv_removeAllFromPaneViewList {s : MVM} (h : StateInv s)
    (pid : String) : StateInv (_removeAllFromPaneViewList s pid).1 := by
  rcases hgp : _getPaneFromPaneId s pid with _ | pane
  · simp only [_removeAllFromPaneViewList, hgp]
    exact h
  · rw [_removeAllFromPaneViewList]
    rw [hgp]
    unfold Pane.removeAllFromViewList
    by_cases hc : pane.viewList.isEmpty
    · simp only [if_pos hc]
      exact h
    · simp only [if_neg hc]
      exact StateInv.setPane_sub h hgp rfl (List.Perm.refl []) (List.nil_sublist _)

theorem inv_removeAllFromPaneViewList {s : MVM} (h : StateInv s)
    (pid : String) : StateInv (removeAllFromPaneViewList s pid).1 := by
  unfold removeAllFromPaneViewList
  by_cases hc : pid = ALL_PANES
  · rw [if_pos hc]
    exact inv_forEachPane h _ (fun t p ht => inv_priv_removeAllFromPaneViewList ht p)
  · rw [if_neg hc]
    exact inv_priv_removeAllFromPaneViewList h pid

theorem inv_makePaneViewMostRecent {s : MVM} (h : StateInv s)
    (pid : String) (f : File) : StateInv (makePaneViewMostRecent s pid f) := by
  rcases hgp : _getPaneFromPaneId s pid with _ | pane
  · simp only [makePaneViewMostRecent, hgp]
    exact h
  · have hmem : (resolvePaneId s pid, pane) ∈ s.paneViews := mem_of_lookup_eq_some hgp
    have hpm : pane.mruList.Perm pane.viewList := h.2.2.2.2 _ hmem
    rw [makePaneViewMostRecent]
    rw [hgp]
    unfold Pane.makeViewMostRecent
    by_cases hc : pane.mruList.contains f
    · simp only [if_pos hc]
      have hfm : f ∈ pane.mruList := by simpa using hc
      refine StateInv.setPane_sub h hgp rfl ?_ (List.Sublist.refl _)
      exact ((List.perm_cons_erase hfm).symm).trans hpm
    · simp only [if_neg hc]
      exact StateInv.setPane_sub h hgp rfl hpm (List.Sublist.refl _)

theorem inv_setActivePaneId {s : MVM} (h : StateInv s) (pid : String) :
    StateInv (setActivePaneId s pid).1 := by
  unfold setActivePaneId
  by_cases hc : (s.paneViews.lookup pid).isSome = true ∧ pid ≠ s.activePaneId
  · rw [if_pos hc]
    obtain ⟨hsh, hact, hid, hnd, hpm⟩ := h
    exact ⟨hsh, hc.1, hid, hnd, hpm⟩
  · rw [if_neg hc]
    exact h

theorem inv_doOpenDocument {s : MVM} (h : StateInv s) (k : String) (f : File) :
    StateInv (doOpenDocument s k f) := by
  rcases hgp : s.paneViews.lookup k with _ | pane
  · simp only [doOpenDocument, hgp]
    exact h
  · have hmem : (k, pane) ∈ s.paneViews := mem_of_lookup_eq_some hgp
    have hpm : pane.mruList.Perm pane.viewList := h.2.2.2.2 _ hmem
    rw [doOpenDocument]
    rw [hgp]
    exact StateInv.setPane_sub h hgp rfl hpm (List.Sublist.refl _)

theorem inv_doEdit (env : Env) {s : MVM} (h : StateInv s) (pid : String) (f : File) :
    StateInv (doEdit env s pid f).1 := by
  unfold doEdit
  rcases hred : getPaneIdForPath s f with _ | cur <;> simp only [hred]
  · rcases hgp : _getPaneFromPaneId s pid with _ | pane <;> simp only [hgp]
    · exact h
    · by_cases hadd : env.isUntitledDoc f ∨ ¬ env.isWithinProject f
      · simp only [if_pos hadd]
        exact inv_makePaneViewMostRecent
          (inv_doOpenDocument (inv_addToPaneViewList env h pid f none false) _ _) _ _
      · simp only [if_neg hadd]
        exact inv_makePaneViewMostRecent (inv_doOpenDocument h _ _) _ _
  · have h1 := inv_setActivePaneId h cur
    rcases hgp : _getPaneFromPaneId (setActivePaneId s cur).1 cur with _ | pane <;>
      simp only [hgp]
    · exact h1
    · by_cases hadd : env.isUntitledDoc f ∨ ¬ env.isWithinProject f
      · simp only [if_pos hadd]
        exact inv_makePaneViewMostRecent
          (inv_doOpenDocument (inv_addToPaneViewList env h1 cur f none false) _ _) _ _
      · simp only [if_neg hadd]
        exact inv_makePaneViewMostRecent (inv_doOpenDocument h1 _ _) _ _

theorem inv_doOpen (env : Env) {s : MVM} (h : StateInv s) (pid : String)
    (file : Option File) : StateInv (doOpen env s pid file).1 := by
  unfold doOpen
  rcases file with _ | f
  · exact h
  · rcases hred : getPaneIdForPath s f with _ | cur <;> simp only [hred]
    · by_cases hdoc : env.getOpenDocumentForPath f
      · simp only [if_pos hdoc]
        exact inv_doEdit env h pid f
      · simp only [if_neg hdoc]
        by_cases hcan : env.canOpenFile f
        · simp only [if_pos hcan]
          rcases hload : env.getDocumentForPath f with e | u <;> simp only [hload]
          · exact h
          · exact inv_doEdit env h pid f
        · simp only [if_neg hcan]
          exact h
    · have h1 := inv_setActivePaneId h cur
      by_cases hdoc : env.getOpenDocumentForPath f
      · simp only [if_pos hdoc]
        exact inv_doEdit env h1 cur f
      · simp only [if_neg hdoc]
        by_cases hcan : env.canOpenFile f
        · simp only [if_pos hcan]
          rcases hload : env.getDocumentForPath f with e | u <;> simp only [hload]
          · exact h1
          · exact inv_doEdit env h1 cur f
        · simp only [if_neg hcan]
          exact h1

theorem inv_doCloseInPane {s : MVM} (h : StateInv s) {pid : String} {f : File}
    {s' : MVM} {evs : List Ev} (hr : doCloseInPane s pid f = some (s', evs)) :
    StateInv s' := by
  unfold doCloseInPane at hr
  rcases hgp : _getPaneFromPaneId s pid with _ | pane
  · rw [hgp] at hr
    exact absurd hr (by simp)
  · rw [hgp] at hr
    have hmem : (resolvePaneId s pid, pane) ∈ s.paneViews := mem_of_lookup_eq_some hgp
    have hpm : pane.mruList.Perm pane.viewList := h.2.2.2.2 _ hmem
    simp only [Option.some.injEq] at hr
    injection hr with h1 h2
    rw [← h1]
    exact StateInv.setPane_sub h hgp rfl (hpm.erase f) (List.erase_sublist f _)

theorem inv_doClose {s : MVM} (h : StateInv s) {pid : String} {f : File}
    {s' : MVM} {evs : List Ev} (hr : doClose s pid f = some (s', evs)) :
    StateInv s' := by
  unfold doClose at hr
  split at hr
  · split at hr
    · exact inv_doCloseInPane h hr
    · simp only [Option.some.injEq] at hr
      injection hr with h1 h2
      rw [← h1]
      exact h
  · exact inv_doCloseInPane h hr

theorem inv_doCloseAll {s : MVM} (h : StateInv s) {pid : String}
    {s' : MVM} {evs : List Ev} (hr : doCloseAll s pid = some (s', evs)) :
    StateInv s' := by
  unfold doCloseAll at hr
  split at hr
  · simp only [Option.some.injEq] at hr
    rcases shape_of_inv h with ⟨p1, hl, hid1, hpm1, hnd1, hact⟩ |
      ⟨p1, p2, hl, hid1, hid2, hpm1, hpm2, hnd, hact⟩
    · rw [hl] at hr
      simp only [List.foldl_cons, List.foldl_nil] at hr
      injection hr with h1 h2
      rw [← h1]
      have hlk : s.paneViews.lookup FIRST_PANE = some p1 := by
        rw [hl]; simp [List.lookup]
      exact StateInv.setPane_sub h hlk rfl (List.Perm.refl []) (List.nil_sublist _)
    · rw [hl] at hr
      simp only [List.foldl_cons, List.foldl_nil] at hr
      injection hr with h1 h2
      rw [← h1]
      have hlk1 : s.paneViews.lookup FIRST_PANE = some p1 := by
        rw [hl]; simp [List.lookup]
      have inv1 : StateInv (setPane s p1.doRemoveAllViews) :=
        StateInv.setPane_sub h hlk1 rfl (List.Perm.refl []) (List.nil_sublist _)
      have hset1 : setPane s p1.doRemoveAllViews =
          { s with paneViews := [(FIRST_PANE, p1.doRemoveAllViews), (SECOND_PANE, p2)] } :=
        setPane_two_first hl hid1
      have hlk2 : (setPane s p1.doRemoveAllViews).paneViews.lookup SECOND_PANE =
          some p2 := by
        rw [hset1]
        simp [List.lookup, second_beq_first]
      exact StateInv.setPane_sub inv1 hlk2 rfl (List.Perm.refl []) (List.nil_sublist _)
  · split at hr
    · exact absurd hr (by simp)
    · rename_i pane hgp
      simp only [Option.some.injEq] at hr
      injection hr with h1 h2
      rw [← h1]
      exact StateInv.setPane_sub h hgp rfl (List.Perm.refl []) (List.nil_sublist _)

theorem doRemoveViews_spec (p : Pane) (fl : List File) :
    (p.doRemoveViews fl).1.id = p.id
    ∧ (p.doRemoveViews fl).1.viewList.Sublist p.viewList
    ∧ ((p.mruList.Perm p.viewList) →
        (p.doRemoveViews fl).1.mruList.Perm (p.doRemoveViews fl).1.viewList) := by
  refine ⟨rfl, List.filter_sublist _, fun hpm => hpm.filter _⟩

theorem inv_doCloseList {s : MVM} (h : StateInv s) {pid : String} {fl : List File}
    {s' : MVM} {evs : List Ev} (hr : doCloseList s pid fl = some (s', evs)) :
    StateInv s' := by
  unfold doCloseList at hr
  split at hr
  · simp only [Option.some.injEq] at hr
    rcases shape_of_inv h with ⟨p1, hl, hid1, hpm1, hnd1, hact⟩ |
      ⟨p1, p2, hl, hid1, hid2, hpm1, hpm2, hnd, hact⟩
    · rw [hl] at hr
      simp only [List.foldl_cons, List.foldl_nil] at hr
      injection hr with h1 h2
      rw [← h1]
      have hlk : s.paneViews.lookup FIRST_PANE = some p1 := by
        rw [hl]; simp [List.lookup]
      exact StateInv.setPane_sub h hlk (doRemoveViews_spec p1 fl).1
        ((doRemoveViews_spec p1 fl).2.2 hpm1) (doRemoveViews_spec p1 fl).2.1
    · rw [hl] at hr
      simp only [List.foldl_cons, List.foldl_nil] at hr
      injection hr with h1 h2
      rw [← h1]
      have hlk1 : s.paneViews.lookup FIRST_PANE = some p1 := by
        rw [hl]; simp [List.lookup]
      have inv1 : StateInv (setPane s (p1.doRemoveViews fl).1) :=
        StateInv.setPane_sub h hlk1 (doRemoveViews_spec p1 fl).1
          ((doRemoveViews_spec p1 fl).2.2 hpm1) (doRemoveViews_spec p1 fl).2.1
      have hset1 : setPane s (p1.doRemoveViews fl).1 =
          { s with paneViews :=
              [(FIRST_PANE, (p1.doRemoveViews fl).1), (SECOND_PANE, p2)] } :=
        setPane_two_first hl ((doRemoveViews_spec p1 fl).1.trans hid1)
      have hlk2 : (setPane s (p1.doRemoveViews fl).1).paneViews.lookup SECOND_PANE =
          some p2 := by
        rw [hset1]
        simp [List.lookup, second_beq_first]
      exact StateInv.setPane_sub inv1 hlk2 (doRemoveViews_spec p2 fl).1
        ((doRemoveViews_spec p2 fl).2.2 hpm2) (doRemoveViews_spec p2 fl).2.1
  · split at hr
    · exact absurd hr (by simp)
    · rename_i pane hgp
      simp only [Option.some.injEq] at hr
      injection hr with h1 h2
      rw [← h1]
      have hmem : (resolvePaneId s pid, pane) ∈ s.paneViews := mem_of_lookup_eq_some hgp
      have hpm : pane.mruList.Perm pane.viewList := h.2.2.2.2 _ hmem
      exact StateInv.setPane_sub h hgp (doRemoveViews_spec pane fl).1
        ((doRemoveViews_spec pane fl).2.2 hpm) (doRemoveViews_spec pane fl).2.1

theorem inv_orient {s : MVM} (h : StateInv s) (o : Option Orient) :
    StateInv { s with orientation := o } := h

theorem inv_createSecond {s : MVM} (h : StateInv s) :
    StateInv (_createPaneIfNecessary s SECOND_PANE).1 := by
  unfold _createPaneIfNecessary
  by_cases hc : (s.paneViews.lookup SECOND_PANE).isSome = true
  · rw [if_pos hc]
    exact h
  · rw [if_neg hc]
    rcases shape_of_inv h with ⟨p1, hl, hid1, hpm1, hnd1, hact⟩ |
      ⟨p1, p2, hl, hid1, hid2, hpm1, hpm2, hnd, hact⟩
    · have : s.paneViews ++ [(SECOND_PANE, mkPane SECOND_PANE)] =
          [(FIRST_PANE, p1), (SECOND_PANE, mkPane SECOND_PANE)] := by
        rw [hl]; rfl
      rw [this]
      exact inv_build_two hid1 rfl hpm1 (List.Perm.refl [])
        (by simpa [mkPane] using hnd1) (Or.inl hact)
    · exfalso
      apply hc
      rw [hl]
      simp [List.lookup, second_beq_first]

theorem inv_doSplit {s : MVM} (h : StateInv s) (o : Orient) :
    StateInv (_doSplit s o).1 :=
  inv_orient (inv_createSecond h) _

theorem inv_doUnsplit {s : MVM} (h : StateInv s)
    {s' : MVM} {evs : List Ev} (hr : _doUnsplit s = some (s', evs)) :
    StateInv s' := by
  unfold _doUnsplit at hr
  rcases hlk2 : s.paneViews.lookup SECOND_PANE with _ | secondPane
  · rw [hlk2] at hr
    simp only [Option.some.injEq] at hr
    injection hr with h1 h2
    rw [← h1]
    exact h
  · rw [hlk2] at hr
    rcases hlk1 : s.paneViews.lookup FIRST_PANE with _ | firstPane
    · rw [hlk1] at hr
      exact absurd hr (by simp)
    · rw [hlk1] at hr
      simp only [Option.some.injEq] at hr
      injection hr with h1 h2
      rw [← h1]
      rcases shape_of_inv h with ⟨p1, hl, hid1, hpm1, hnd1, hact⟩ |
        ⟨p1, p2, hl, hid1, hid2, hpm1, hpm2, hnd, hact⟩
      · exfalso
        rw [hl] at hlk2
        simp [List.lookup, second_beq_first] at hlk2
      · have e2 : secondPane = p2 := by
          rw [hl] at hlk2
          simp [List.lookup, second_beq_first] at hlk2
          exact hlk2.symm
        have e1 : firstPane = p1 := by
          rw [hl] at hlk1
          simp [List.lookup] at hlk1
          exact hlk1.symm
        rw [e1, e2]
        have hmid : (p1.mergeWith p2).id = FIRST_PANE := hid1
        have hset1 : setPane s (p1.mergeWith p2) =
            { s with paneViews := [(FIRST_PANE, p1.mergeWith p2), (SECOND_PANE, p2)] } :=
          setPane_two_first hl hmid
        have hA : (setActivePaneId (setPane s (p1.mergeWith p2)) p1.id).1.paneViews
              = (setPane s (p1.mergeWith p2)).paneViews
            ∧ (setActivePaneId (setPane s (p1.mergeWith p2)) p1.id).1.activePaneId
              = FIRST_PANE := by
          unfold setActivePaneId
          by_cases hc : ((setPane s (p1.mergeWith p2)).paneViews.lookup p1.id).isSome
                = true
              ∧ p1.id ≠ (setPane s (p1.mergeWith p2)).activePaneId
          · rw [if_pos hc]
            exact ⟨rfl, hid1⟩
          · rw [if_neg hc]
            refine ⟨rfl, ?_⟩
            rw [not_and_or] at hc
            rcases hc with hc | hc
            · exfalso
              apply hc
              rw [hset1, hid1]
              simp [List.lookup]
            · rw [not_not] at hc
              rw [← hc, hid1]
        have hfilter : (setActivePaneId (setPane s (p1.mergeWith p2)) p1.id).1.paneViews.filter
            (fun pr => ¬ pr.1 == SECOND_PANE) = [(FIRST_PANE, p1.mergeWith p2)] := by
          rw [hA.1, hset1]
          simp [first_ne_second, second_ne_first]
        rw [hfilter]
        refine inv_build_one hid1 ?_ hnd ?_
        · exact hpm1.append hpm2
        · exact hA.2

theorem inv_handleSplitVertically {s : MVM} (h : StateInv s)
    {s' : MVM} {evs : List Ev} (hr : _handleSplitVertically s = some (s', evs)) :
    StateInv s' := by
  unfold _handleSplitVertically at hr
  split at hr
  · exact inv_doUnsplit h hr
  · simp only [Option.some.injEq] at hr
    injection hr with h1 h2
    rw [← h1]
    exact inv_doSplit h _

theorem inv_handleSplitHorizontially {s : MVM} (h : StateInv s)
    {s' : MVM} {evs : List Ev} (hr : _handleSplitHorizontially s = some (s', evs)) :
    StateInv s' := by
  unfold _handleSplitHorizontially at hr
  split at hr
  · exact inv_doUnsplit h hr
  · simp only [Option.some.injEq] at hr
    injection hr with h1 h2
    rw [← h1]
    exact inv_doSplit h _

theorem inv_applyOp {s : MVM} (h : StateInv s) {op : Op} {s' : MVM} {evs : List Ev}
    (hr : applyOp s op = some (s', evs)) : StateInv s' := by
  cases op with
  | addToPaneViewList env pid f i force =>
    simp only [applyOp, Option.some.injEq] at hr
    have h1 : s' = (addToPaneViewList env s pid f i force).1 := by rw [hr]
    rw [h1]
    exact inv_addToPaneViewList env h pid f i force
  | addListToPaneViewList env pid fl =>
    simp only [applyOp, Option.some.injEq] at hr
    have h1 : s' = (addListToPaneViewList env s pid fl).1 := by rw [hr]
    rw [h1]
    exact inv_addListToPaneViewList env h pid fl
  | removeFromPaneViewList pid f sup =>
    simp only [applyOp, Option.some.injEq] at hr
    have h1 : s' = (removeFromPaneViewList s pid f sup).1 := by rw [hr]
    rw [h1]
    exact inv_removeFromPaneViewList h pid f sup
  | removeListFromPaneViewList pid fl =>
    simp only [applyOp, Option.some.injEq] at hr
    have h1 : s' = (removeListFromPaneViewList s pid fl).1 := by rw [hr]
    rw [h1]
    exact inv_removeListFromPaneViewList h pid fl
  | removeAllFromPaneViewList pid =>
    simp only [applyOp, Option.some.injEq] at hr
    have h1 : s' = (removeAllFromPaneViewList s pid).1 := by rw [hr]
    rw [h1]
    exact inv_removeAllFromPaneViewList h pid
  | makePaneViewMostRecent pid f =>
    simp only [applyOp, Option.some.injEq] at hr
    have h1 : s' = (makePaneViewMostRecent s pid f, ([] : List Ev)).1 := by rw [hr]
    rw [h1]
    exact inv_makePaneViewMostRecent h pid f
  | setActivePaneId pid =>
    simp only [applyOp, Option.some.injEq] at hr
    have h1 : s' = (setActivePaneId s pid).1 := by rw [hr]
    rw [h1]
    exact inv_setActivePaneId h pid
  | doEdit env pid f =>
    simp only [applyOp, Option.some.injEq] at hr
    have h1 : s' = (doEdit env s pid f).1 := by rw [hr]
    rw [h1]
    exact inv_doEdit env h pid f
  | doOpen env pid file =>
    simp only [applyOp, Option.some.injEq] at hr
    have h1 : s' = ((doOpen env s pid file).1, (doOpen env s pid file).2.1).1 := by
      rw [hr]
    rw [h1]
    exact inv_doOpen env h pid file
  | doClose pid f =>
    simp only [applyOp] at hr
    exact inv_doClose h hr
  | doCloseAll pid =>
    simp only [applyOp] at hr
    exact inv_doCloseAll h hr
  | doCloseList pid fl =>
    simp only [applyOp] at hr
    exact inv_doCloseList h hr
  | splitVertically =>
    simp only [applyOp] at hr
    exact inv_handleSplitVertically h hr
  | splitHorizontally =>
    simp only [applyOp] at hr
    exact inv_handleSplitHorizontially h hr

theorem inv_initialState : StateInv initialState := by decide

/-- Every reachable state satisfies the invariant. -/
theorem reachable_inv {s : MVM} (h : Reachable s) : StateInv s := by
  induction h with
  | init => exact inv_initialState
  | step hreach hstep ih => exact inv_applyOp ih hstep

/-- A test environment where every file is a plain editable file. -/
def envAllOpen : Env :=
  { canOpenFile := fun _ => true
  , getOpenDocumentForPath := fun _ => false
  , getDocumentForPath := fun _ => Except.ok ()
  , isWithinProject := fun _ => true
  , isUntitledDoc := fun _ => false }

/-- A test environment where no file can be opened by the editor
(every file needs a custom viewer) and no document is open. -/
def envCustomOnly : Env :=
  { canOpenFile := fun _ => false
  , getOpenDocumentForPath := fun _ => false
  , getDocumentForPath := fun _ => Except.error "load failed"
  , isWithinProject := fun _ => true
  , isUntitledDoc := fun _ => false }

/-- A sample file path. -/
def fileA : File := "/a.js"

/-- Another sample file path. -/
def fileB : File := "/b.js"

/-- The first pane holding just `fileA`. -/
def paneA : Pane := ⟨FIRST_PANE, [fileA], [fileA], none⟩

/-- The second pane holding just `fileB`. -/
def paneB : Pane := ⟨SECOND_PANE, [fileB], [fileB], none⟩

/-- The state after adding `fileA` to the first pane of the initial state. -/
def stateA : MVM := ⟨[(FIRST_PANE, paneA)], FIRST_PANE, none⟩

/-- A split state: `fileA` in the first pane, `fileB` in the second. -/
def stateSplitAB : MVM :=
  ⟨[(FIRST_PANE, paneA), (SECOND_PANE, paneB)], FIRST_PANE, some Orient.vertical⟩

theorem reachable_stateA : Reachable stateA :=
  @Reachable.step initialState
    (Op.addToPaneViewList envAllOpen FIRST_PANE fileA none false) stateA
    [Ev.paneViewListAdd fileA 0 FIRST_PANE] Reachable.init (by decide)

/-- The empty split state reached by toggling the vertical split once. -/
def stateSplit0 : MVM :=
  ⟨[(FIRST_PANE, mkPane FIRST_PANE), (SECOND_PANE, mkPane SECOND_PANE)],
   FIRST_PANE, some Orient.vertical⟩

/-- The split state after adding `fileA` to the first pane. -/
def stateSplitA : MVM :=
  ⟨[(FIRST_PANE, paneA), (SECOND_PANE, mkPane SECOND_PANE)],
   FIRST_PANE, some Orient.vertical⟩

theorem reachable_stateSplitAB : Reachable stateSplitAB :=
  @Reachable.step stateSplitA
    (Op.addToPaneViewList envAllOpen SECOND_PANE fileB none false) stateSplitAB
    [Ev.paneViewListAdd fileB 0 SECOND_PANE]
    (@Reachable.step stateSplit0
      (Op.addToPaneViewList envAllOpen FIRST_PANE fileA none false) stateSplitA
      [Ev.paneViewListAdd fileA 0 FIRST_PANE]
      (@Reachable.step initialState Op.splitVertically stateSplit0
        [Ev.paneCreated SECOND_PANE, Ev.paneLayoutChange (some Orient.vertical)]
        Reachable.init (by decide))
      (by decide))
    (by decide)

/-- C1: starting from the initial state, after any sequence of completed
operations (in particular the add and open operations
`addToPaneViewList`, `addListToPaneViewList`, `doOpen`/`doEdit`), a file
appears in at most one pane's view list across the whole registry: two
registry entries whose view lists both contain the file are the same
entry. -/
theorem c1_file_in_at_most_one_pane {s : MVM} (h : Reachable s) (f : File)
    {k1 k2 : String} {q1 q2 : Pane}
    (h1 : s.paneViews.lookup k1 = some q1) (h2 : s.paneViews.lookup k2 = some q2)
    (hf1 : f ∈ q1.viewList) (hf2 : f ∈ q2.viewList) : k1 = k2 := by
  have hinv := reachable_inv h
  rcases shape_of_inv hinv with ⟨p1, hl, -, -, -, -⟩ |
    ⟨p1, p2, hl, -, -, -, -, hnd, -⟩
  · obtain ⟨-, hk1⟩ := lookup_one_some hl h1
    obtain ⟨-, hk2⟩ := lookup_one_some hl h2
    rw [hk1, hk2]
  · have hdisj : ∀ g, g ∈ p1.viewList → g ∉ p2.viewList :=
      fun g hg1 hg2 => (List.disjoint_of_nodup_append hnd) hg1 hg2
    rcases lookup_two_some hl h1 with ⟨hq1, hk1⟩ | ⟨hq1, hk1⟩ <;>
      rcases lookup_two_some hl h2 with ⟨hq2, hk2⟩ | ⟨hq2, hk2⟩
    · rw [hk1, hk2]
    · exfalso
      exact hdisj f (hq1 ▸ hf1) (hq2 ▸ hf2)
    · exfalso
      exact hdisj f (hq2 ▸ hf2) (hq1 ▸ hf1)
    · rw [hk1, hk2]

theorem c1_witness : FIRST_PANE = FIRST_PANE :=
  @c1_file_in_at_most_one_pane stateA reachable_stateA fileA
    FIRST_PANE FIRST_PANE paneA paneA
    (by decide) (by decide) (by decide) (by decide)

theorem doUnsplit_two {s : MVM} {p1 p2 : Pane}
    (hl : s.paneViews = [(FIRST_PANE, p1), (SECOND_PANE, p2)])
    (hid1 : p1.id = FIRST_PANE) :
    ∃ s' evs, _doUnsplit s = some (s', evs)
      ∧ s'.paneViews = [(FIRST_PANE, p1.mergeWith p2)]
      ∧ s'.activePaneId = FIRST_PANE
      ∧ s'.orientation = none := by
  have hlk2 : s.paneViews.lookup SECOND_PANE = some p2 := by
    rw [hl]; simp [List.lookup, second_beq_first]
  have hlk1 : s.paneViews.lookup FIRST_PANE = some p1 := by
    rw [hl]; simp [List.lookup]
  have hmid : (p1.mergeWith p2).id = FIRST_PANE := hid1
  have hset1 : setPane s (p1.mergeWith p2) =
      { s with paneViews := [(FIRST_PANE, p1.mergeWith p2), (SECOND_PANE, p2)] } :=
    setPane_two_first hl hmid
  have hA : (setActivePaneId (setPane s (p1.mergeWith p2)) p1.id).1.paneViews
        = (setPane s (p1.mergeWith p2)).paneViews
      ∧ (setActivePaneId (setPane s (p1.mergeWith p2)) p1.id).1.activePaneId
        = FIRST_PANE := by
    unfold setActivePaneId
    by_cases hc : ((setPane s (p1.mergeWith p2)).paneViews.lookup p1.id).isSome = true
        ∧ p1.id ≠ (setPane s (p1.mergeWith p2)).activePaneId
    · rw [if_pos hc]
      exact ⟨rfl, hid1⟩
    · rw [if_neg hc]
      refine ⟨rfl, ?_⟩
      rw [not_and_or] at hc
      rcases hc with hc | hc
      · exfalso
        apply hc
        rw [hset1, hid1]
        simp [List.lookup]
      · rw [not_not] at hc
        rw [← hc, hid1]
  have hfilter : (setActivePaneId (setPane s (p1.mergeWith p2)) p1.id).1.paneViews.filter
      (fun pr => ¬ pr.1 == SECOND_PANE) = [(FIRST_PANE, p1.mergeWith p2)] := by
    rw [hA.1, hset1]
    simp [first_ne_second, second_ne_first]
  unfold _doUnsplit
  rw [hlk2, hlk1]
  refine ⟨_, _, rfl, ?_, ?_, rfl⟩
  · exact hfilter
  · exact hA.2

/-- C2: from every reachable state in which the second pane exists,
the unsplit transition appends the second pane's ordered view list onto
the end of the first pane's with no file lost and none duplicated, makes
the first pane the active pane, and removes the second pane from the
registry. -/
theorem c2_unsplit_merges {s : MVM} (h : Reachable s) {p1 p2 : Pane}
    (h1 : s.paneViews.lookup FIRST_PANE = some p1)
    (h2 : s.paneViews.lookup SECOND_PANE = some p2) :
    ∃ s' evs, _doUnsplit s = some (s', evs)
      ∧ (∃ p', s'.paneViews.lookup FIRST_PANE = some p'
          ∧ p'.viewList = p1.viewList ++ p2.viewList
          ∧ p'.viewList.Nodup
          ∧ (∀ f, f ∈ p'.viewList ↔ (f ∈ p1.viewList ∨ f ∈ p2.viewList)))
      ∧ s'.activePaneId = FIRST_PANE
      ∧ s'.paneViews.lookup SECOND_PANE = none := by
  have hinv := reachable_inv h
  rcases shape_of_inv hinv with ⟨q1, hl, -, -, -, -⟩ |
    ⟨q1, q2, hl, hid1, -, -, -, hnd, -⟩
  · exfalso
    rw [hl] at h2
    simp [List.lookup, second_beq_first] at h2
  · have e1 : p1 = q1 := by
      rw [hl] at h1
      simp [List.lookup] at h1
      exact h1.symm
    have e2 : p2 = q2 := by
      rw [hl] at h2
      simp [List.lookup, second_beq_first] at h2
      exact h2.symm
    subst e1
    subst e2
    obtain ⟨s', evs, hrun, hpv, hact, horient⟩ := doUnsplit_two hl hid1
    refine ⟨s', evs, hrun, ⟨p1.mergeWith p2, ?_, rfl, hnd, fun f => ?_⟩, hact, ?_⟩
    · rw [hpv]
      simp [List.lookup]
    · exact List.mem_append
    · rw [hpv]
      simp [List.lookup, second_beq_first]

theorem c2_witness :
    ∃ s' evs, _doUnsplit stateSplitAB = some (s', evs)
      ∧ (∃ p', s'.paneViews.lookup FIRST_PANE = some p'
          ∧ p'.viewList = paneA.viewList ++ paneB.viewList
          ∧ p'.viewList.Nodup
          ∧ (∀ f, f ∈ p'.viewList ↔ (f ∈ paneA.viewList ∨ f ∈ paneB.viewList)))
      ∧ s'.activePaneId = FIRST_PANE
      ∧ s'.paneViews.lookup SECOND_PANE = none :=
  c2_unsplit_merges reachable_stateSplitAB (by decide) (by decide)

/-- C9: in every reachable state the active pane id is a registry key and
the first pane is in the registry; `setActivePaneId` leaves the active
pane id unchanged when the requested id is not a registry key; and when
the second pane exists, unsplit reassigns the active pane to the first
pane and deletes the second. -/
theorem c9_active_pane_always_valid {s : MVM} (h : Reachable s) :
    (s.paneViews.lookup s.activePaneId).isSome = true
    ∧ (s.paneViews.lookup FIRST_PANE).isSome = true
    ∧ (∀ pid, s.paneViews.lookup pid = none →
        (setActivePaneId s pid).1.activePaneId = s.activePaneId)
    ∧ (∀ p2, s.paneViews.lookup SECOND_PANE = some p2 →
        ∃ s' evs, _doUnsplit s = some (s', evs)
          ∧ s'.activePaneId = FIRST_PANE
          ∧ s'.paneViews.lookup SECOND_PANE = none) := by
  have hinv := reachable_inv h
  refine ⟨hinv.2.1, ?_, ?_, ?_⟩
  · rcases shape_of_inv hinv with ⟨p1, hl, -, -, -, -⟩ | ⟨p1, p2, hl, -, -, -, -, -, -⟩
    · rw [hl]
      simp [List.lookup]
    · rw [hl]
      simp [List.lookup]
  · intro pid hnone
    unfold setActivePaneId
    rw [if_neg]
    intro hc
    rw [hnone] at hc
    exact absurd hc.1 (by simp)
  · intro p2 h2
    rcases shape_of_inv hinv with ⟨q1, hl, -, -, -, -⟩ |
      ⟨q1, q2, hl, hid1, -, -, -, -, -⟩
    · exfalso
      rw [hl] at h2
      simp [List.lookup, second_beq_first] at h2
    · obtain ⟨s', evs, hrun, hpv, hact, -⟩ := doUnsplit_two hl hid1
      refine ⟨s', evs, hrun, hact, ?_⟩
      rw [hpv]
      simp [List.lookup, second_beq_first]

theorem c9_witness :
    ((stateSplitAB.paneViews.lookup stateSplitAB.activePaneId).isSome = true
    ∧ (stateSplitAB.paneViews.lookup FIRST_PANE).isSome = true
    ∧ (∀ pid, stateSplitAB.paneViews.lookup pid = none →
        (setActivePaneId stateSplitAB pid).1.activePaneId = stateSplitAB.activePaneId)
    ∧ (∀ p2, stateSplitAB.paneViews.lookup SECOND_PANE = some p2 →
        ∃ s' evs, _doUnsplit stateSplitAB = some (s', evs)
          ∧ s'.activePaneId = FIRST_PANE
          ∧ s'.paneViews.lookup SECOND_PANE = none)) :=
  c9_active_pane_always_valid reachable_stateSplitAB

/-- An id under which no pane is ever registered. -/
def unknownPane : String := "third-pane"

/-- C10: `getPaneTitle(paneId)` is well-defined (raises no error) exactly
when the pane id is one of the two concrete ids; for any other id,
including `ALL_PANES` and `FOCUSED_PANE`, its unguarded two-level lookup
throws instead of returning the null sentinel; and with no split active
(orientation `null`) it returns no title. -/
theorem c10_getPaneTitle (s : MVM) (pid : String) :
    ((getPaneTitle s pid).isSome = true ↔ (pid = FIRST_PANE ∨ pid = SECOND_PANE))
    ∧ getPaneTitle s ALL_PANES = none
    ∧ getPaneTitle s FOCUSED_PANE = none
    ∧ (s.orientation = none → (pid = FIRST_PANE ∨ pid = SECOND_PANE) →
        getPaneTitle s pid = some none) := by
  refine ⟨?_, ?_, ?_, ?_⟩
  · unfold getPaneTitle paneTitleTable
    by_cases h1 : pid = FIRST_PANE
    · simp [h1]
    · by_cases h2 : pid = SECOND_PANE
      · simp [h1, h2, second_ne_first]
      · simp [h1, h2]
  · unfold getPaneTitle paneTitleTable
    simp [show ALL_PANES ≠ FIRST_PANE from by decide,
      show ALL_PANES ≠ SECOND_PANE from by decide]
  · unfold getPaneTitle paneTitleTable
    simp [show FOCUSED_PANE ≠ FIRST_PANE from by decide,
      show FOCUSED_PANE ≠ SECOND_PANE from by decide]
  · intro ho hc
    unfold getPaneTitle paneTitleTable
    rcases hc with hc | hc <;> simp [hc, ho, first_ne_second, second_ne_first]

theorem c10_witness :
    ((getPaneTitle initialState FIRST_PANE).isSome = true
      ↔ (FIRST_PANE = FIRST_PANE ∨ FIRST_PANE = SECOND_PANE))
    ∧ getPaneTitle initialState ALL_PANES = none
    ∧ getPaneTitle initialState FOCUSED_PANE = none
    ∧ (initialState.orientation = none → (FIRST_PANE = FIRST_PANE ∨ FIRST_PANE = SECOND_PANE) →
        getPaneTitle initialState FIRST_PANE = some none) :=
  c10_getPaneTitle initialState FIRST_PANE

/-- C5 counterexample: `doCloseAll` with a concrete pane id that is not
in the registry dereferences the `null` pane result of
`_getPaneFromPaneId` without a check and throws a `TypeError` (modelled
by `none`) instead of returning a not-found sentinel. -/
theorem c5_counterexample : doCloseAll initialState unknownPane = none := by decide

/-- C5 (amended): resolving an unknown concrete pane id yields a
not-found sentinel (null / empty / `-1`-style result) for
`getPaneViewList`, `getPaneViewListSize`, `findInPaneViewList`,
`getCurrentlyViewedFileForPane`, `traversePaneViewListByMRU`, and makes
the add/remove operations silent no-ops — but `doClose`, `doCloseAll`
and `doCloseList` dereference the null pane and throw. -/
theorem c5_amended_unknown_pane (env : Env) (s : MVM) (pid : String) (f : File)
    (fl : List File) (sup : Bool) (i : Option Nat) (force : Bool)
    (hn : s.paneViews.lookup pid = none)
    (h1 : pid ≠ ALL_PANES) (h2 : pid ≠ FOCUSED_PANE) (h3 : pid ≠ "") :
    getPaneViewList s pid = none
    ∧ getPaneViewListSize s pid = 0
    ∧ findInPaneViewList s pid f = FindRes.undef
    ∧ getCurrentlyViewedFileForPane s pid = none
    ∧ traversePaneViewListByMRU s pid 1 = none
    ∧ addToPaneViewList env s pid f i force = (s, [])
    ∧ addListToPaneViewList env s pid fl = (s, [])
    ∧ removeFromPaneViewList s pid f sup = (s, [])
    ∧ doClose s pid f = none
    ∧ doCloseAll s pid = none
    ∧ doCloseList s pid fl = none := by
  have hres : resolvePaneId s pid = pid := by
    unfold resolvePaneId
    rw [if_neg]
    push_neg
    exact ⟨h3, h2⟩
  have hgp : _getPaneFromPaneId s pid = none := by
    unfold _getPaneFromPaneId
    rw [hres]
    exact hn
  refine ⟨?_, ?_, ?_, ?_, ?_, ?_, ?_, ?_, ?_, ?_, ?_⟩
  · unfold getPaneViewList
    rw [if_neg h1, hgp]
  · unfold getPaneViewListSize
    rw [if_neg h1, hgp]
  · unfold findInPaneViewList
    rw [if_neg h1, hgp]
  · unfold getCurrentlyViewedFileForPane
    rw [hgp]
  · unfold traversePaneViewListByMRU
    rw [hgp]
  · unfold addToPaneViewList
    rw [hgp]
  · unfold addListToPaneViewList
    rw [hgp]
  · unfold removeFromPaneViewList _removeFromPaneViewList
    rw [if_neg h1, hgp]
  · unfold doClose doCloseInPane
    rw [if_neg h1, hgp]
  · unfold doCloseAll
    rw [if_neg h1, hgp]
  · unfold doCloseList
    rw [if_neg h1, hgp]

theorem c5_witness :
    (getPaneViewList initialState unknownPane = none
    ∧ getPaneViewListSize initialState unknownPane = 0
    ∧ findInPaneViewList initialState unknownPane fileA = FindRes.undef
    ∧ getCurrentlyViewedFileForPane initialState unknownPane = none
    ∧ traversePaneViewListByMRU initialState unknownPane 1 = none
    ∧ addToPaneViewList envAllOpen initialState unknownPane fileA none false
        = (initialState, [])
    ∧ addListToPaneViewList envAllOpen initialState unknownPane [fileA]
        = (initialState, [])
    ∧ removeFromPaneViewList initialState unknownPane fileA false = (initialState, [])
    ∧ doClose initialState unknownPane fileA = none
    ∧ doCloseAll initialState unknownPane = none
    ∧ doCloseList initialState unknownPane [fileA] = none) :=
  c5_amended_unknown_pane envAllOpen initialState unknownPane fileA [fileA] false
    none false (by decide) (by decide) (by decide) (by decide)

/-- C6 counterexample: with no split active (`_orientation` is `null` in
the initial state), `doOpen` on a file with no open document that the
editor cannot open still rejects with the custom-viewer
not-yet-implemented diagnostic — the code never consults the split
state. -/
theorem c6_counterexample :
    getSplitOrientation initialState = none
    ∧ (doOpen envCustomOnly initialState FIRST_PANE (some fileA)).2.2
        = OpenOutcome.rejected RejectReason.customViewerNotImplemented
    ∧ RejectReason.customViewerNotImplemented.message
        = "custom viewers not yet implemented with split view. check back later." := by
  refine ⟨rfl, by decide, rfl⟩

/-- C6 (amended): `doOpen` rejects with `"bad argument"` exactly when
called with no file; it rejects with the custom-viewer
not-yet-implemented diagnostic exactly when a file is given, no document
is already open for its path, and the editor cannot open it (it requires
a custom viewer) — regardless of whether a split is active; in all other
cases it does not reject for these two reasons. -/
theorem c6_doOpen_reject_reasons (env : Env) (s : MVM) (pid : String)
    (file : Option File) :
    ((doOpen env s pid file).2.2 = OpenOutcome.rejected RejectReason.badArgument
      ↔ file = none)
    ∧ ((doOpen env s pid file).2.2
          = OpenOutcome.rejected RejectReason.customViewerNotImplemented
      ↔ ∃ f, file = some f ∧ env.getOpenDocumentForPath f = false
          ∧ env.canOpenFile f = false) := by
  rcases file with _ | f
  · constructor
    · simp [doOpen]
    · constructor
      · intro h
        simp [doOpen] at h
      · intro h
        simp at h
  · unfold doOpen
    rcases hred : getPaneIdForPath s f with _ | cur <;> simp only [hred] <;>
    · by_cases hdoc : env.getOpenDocumentForPath f
      · simp [if_pos hdoc, hdoc]
      · by_cases hcan : env.canOpenFile f
        · simp only [if_neg hdoc, if_pos hcan]
          rcases hload : env.getDocumentForPath f with e | u <;>
            simp [hload, hdoc, hcan]
        · simp [if_neg hdoc, if_neg hcan, hdoc, hcan,
            show ¬ env.canOpenFile f = true from hcan]

/-- C7 counterexample: `doCloseAll` on the first pane of the initial
state, whose view list is empty, emits a `paneViewListRemoveList`
notification (with an empty payload) although no file was removed. -/
theorem c7_counterexample :
    getPaneViewListSize initialState FIRST_PANE = 0
    ∧ doCloseAll initialState FIRST_PANE
        = some (initialState, [Ev.paneViewListRemoveList [] FIRST_PANE]) := by
  refine ⟨rfl, by decide⟩

/-- C7 (amended): for a known concrete pane, `removeFromPaneViewList`
and `removeListFromPaneViewList` emit a removal notification iff at
least one file was actually removed, and removing absent files is a
silent no-op (no error, no notification); `doClose` emits
`paneViewListRemove` iff the file was in the view list; but `doCloseAll`
and `doCloseList` emit one `paneViewListRemoveList` per targeted pane
unconditionally, even when nothing was removed. -/
theorem c7_removal_notifications (s : MVM) (pid : String) (f : File) (sup : Bool)
    (fl : List File) {pane : Pane}
    (hall : pid ≠ ALL_PANES) (hp : _getPaneFromPaneId s pid = some pane) :
    ((removeFromPaneViewList s pid f sup).2 ≠ [] ↔ f ∈ pane.viewList)
    ∧ (f ∉ pane.viewList → removeFromPaneViewList s pid f sup = (s, []))
    ∧ ((removeListFromPaneViewList s pid fl).2 ≠ [] ↔ ∃ g ∈ pane.viewList, g ∈ fl)
    ∧ ((∀ g ∈ pane.viewList, g ∉ fl) → removeListFromPaneViewList s pid fl = (s, []))
    ∧ (∃ s' evs, doClose s pid f = some (s', evs) ∧ (evs ≠ [] ↔ f ∈ pane.viewList))
    ∧ (∃ s', doCloseAll s pid
        = some (s', [Ev.paneViewListRemoveList pane.viewList pane.id]))
    ∧ (∃ s' r, doCloseList s pid fl
        = some (s', [Ev.paneViewListRemoveList r pane.id])) := by
  refine ⟨?_, ?_, ?_, ?_, ?_, ?_, ?_⟩
  · unfold removeFromPaneViewList _removeFromPaneViewList Pane.removeFromViewList
    rw [if_neg hall, hp]
    by_cases hc : f ∈ pane.viewList <;> simp [hc]
  · intro hnm
    unfold removeFromPaneViewList _removeFromPaneViewList Pane.removeFromViewList
    rw [if_neg hall, hp]
    simp [hnm]
  · unfold removeListFromPaneViewList _removeListFromPaneViewList
      Pane.removeListFromViewList
    rw [if_neg hall, hp]
    by_cases hc : (pane.viewList.filter (fun g => fl.contains g)).isEmpty
    · simp only [if_pos hc]
      rw [List.isEmpty_iff, List.filter_eq_nil_iff] at hc
      simp only [ne_eq, not_true_eq_false, false_iff]
      push_neg
      intro g hg hgfl
      exact absurd (by simpa using hgfl) (hc g hg)
    · simp only [if_neg hc]
      rw [List.isEmpty_iff, List.filter_eq_nil_iff] at hc
      push_neg at hc
      obtain ⟨g, hg, hgfl⟩ := hc
      simp only [ne_eq, List.cons_ne_nil, not_false_eq_true, true_iff]
      exact ⟨g, hg, by simpa using hgfl⟩
  · intro hnone
    unfold removeListFromPaneViewList _removeListFromPaneViewList
      Pane.removeListFromViewList
    rw [if_neg hall, hp]
    have hc : (pane.viewList.filter (fun g => fl.contains g)).isEmpty := by
      rw [List.isEmpty_iff, List.filter_eq_nil_iff]
      intro g hg
      simpa using hnone g hg
    simp only [if_pos hc]
  · unfold doClose doCloseInPane
    rw [if_neg hall, hp]
    refine ⟨_, _, rfl, ?_⟩
    by_cases hc : f ∈ pane.viewList
    · have : (pane.findInViewList f).isSome = true := by
        unfold Pane.findInViewList
        rcases hfi : pane.viewList.findIdx? (fun g => g == f) with _ | j
        · exact absurd hc (findIdx?_beq_eq_none_iff.1 hfi)
        · rfl
      simp [this, hc]
    · have : pane.viewList.findIdx? (fun g => g == f) = none :=
        findIdx?_beq_eq_none_iff.2 hc
      simp [Pane.findInViewList, this, hc]
  · unfold doCloseAll
    rw [if_neg hall, hp]
    exact ⟨_, rfl⟩
  · unfold doCloseList
    rw [if_neg hall, hp]
    exact ⟨_, _, rfl⟩

theorem c7_witness :
    (((removeFromPaneViewList stateA FIRST_PANE fileA false).2 ≠ []
        ↔ fileA ∈ paneA.viewList)
    ∧ (fileA ∉ paneA.viewList →
        removeFromPaneViewList stateA FIRST_PANE fileA false = (stateA, []))
    ∧ ((removeListFromPaneViewList stateA FIRST_PANE [fileB]).2 ≠ []
        ↔ ∃ g ∈ paneA.viewList, g ∈ [fileB])
    ∧ ((∀ g ∈ paneA.viewList, g ∉ [fileB]) →
        removeListFromPaneViewList stateA FIRST_PANE [fileB] = (stateA, []))
    ∧ (∃ s' evs, doClose stateA FIRST_PANE fileA = some (s', evs)
        ∧ (evs ≠ [] ↔ fileA ∈ paneA.viewList))
    ∧ (∃ s', doCloseAll stateA FIRST_PANE
        = some (s', [Ev.paneViewListRemoveList paneA.viewList paneA.id]))
    ∧ (∃ s' r, doCloseList stateA FIRST_PANE [fileB]
        = some (s', [Ev.paneViewListRemoveList r paneA.id]))) :=
  c7_removal_notifications stateA FIRST_PANE fileA false [fileB]
    (by decide) (by decide)

theorem findIdx?_lt_length {l : List File} {p : File → Bool} {i : Nat}
    (h : l.findIdx? p = some i) : i < l.length := by
  induction l generalizing i with
  | nil => simp [List.findIdx?] at h
  | cons a t ih =>
    rw [List.findIdx?_cons, List.findIdx?_succ] at h
    by_cases hp : p a
    · rw [if_pos hp] at h
      simp at h
      subst h
      simp
    · rw [if_neg hp] at h
      rw [Option.map_eq_some'] at h
      obtain ⟨j, hj, hji⟩ := h
      have := ih hj
      subst hji
      simpa using this

theorem findIdx?_get {l : List File} {p : File → Bool} {i : Nat}
    (h : l.findIdx? p = some i) (hi : i < l.length) : p (l.get ⟨i, hi⟩) = true := by
  induction l generalizing i with
  | nil => simp [List.findIdx?] at h
  | cons a t ih =>
    rw [List.findIdx?_cons, List.findIdx?_succ] at h
    by_cases hp : p a
    · rw [if_pos hp] at h
      simp at h
      subst h
      simpa using hp
    · rw [if_neg hp] at h
      rw [Option.map_eq_some'] at h
      obtain ⟨j, hj, hji⟩ := h
      subst hji
      simpa using ih hj (by simpa using hi)

theorem nodup_findIdx?_get {l : List File} (hnd : l.Nodup) (j : Nat)
    (hj : j < l.length) :
    l.findIdx? (fun g => g == l.get ⟨j, hj⟩) = some j := by
  induction l generalizing j with
  | nil => simp at hj
  | cons a t ih =>
    rcases j with _ | j
    · simp [List.findIdx?_cons]
    · have hnd' := (List.nodup_cons.1 hnd)
      have hget : (a :: t).get ⟨j + 1, hj⟩ = t.get ⟨j, by simpa using hj⟩ := rfl
      rw [hget]
      rw [List.findIdx?_cons, List.findIdx?_succ]
      have hne : (a == t.get ⟨j, by simpa using hj⟩) = false := by
        simp only [beq_eq_false_iff_ne, ne_eq]
        intro he
        exact hnd'.1 (he ▸ List.get_mem t _ _)
      rw [if_neg (by simpa [List.get_eq_getElem] using hne)]
      rw [ih hnd'.2 j (by simpa using hj)]
      rfl

theorem lookup_setPane_self {l : List (String × Pane)} {k : String} {p q : Pane}
    (hl : l.lookup k = some p) (hq : q.id = k) :
    (l.map (fun pr => if pr.1 == q.id then (pr.1, q) else pr)).lookup k = some q := by
  induction l with
  | nil => simp [List.lookup] at hl
  | cons pr rest ih =>
    by_cases hk : k = pr.1
    · have hbeq : (pr.1 == q.id) = true := by
        rw [hq, ← hk]
        simp
      simp only [List.map_cons, hbeq, if_pos]
      simp [List.lookup, hk]
    · have hkb : (k == pr.1) = false := by simpa using hk
      simp only [List.lookup, hkb] at hl
      by_cases hb : (pr.1 == q.id) = true
      · have hpk : pr.1 = k := by
          have h5 := beq_iff_eq.1 hb
          rw [h5, hq]
        exact absurd hpk.symm hk
      · rw [List.map_cons, if_neg hb]
        simp only [List.lookup, hkb]
        exact ih hl

theorem pane_props_of_inv {s : MVM} (h : StateInv s) {k : String} {pane : Pane}
    (hp : s.paneViews.lookup k = some pane) :
    pane.mruList.Perm pane.viewList ∧ pane.viewList.Nodup ∧ pane.id = k := by
  have hmem := mem_of_lookup_eq_some hp
  refine ⟨h.2.2.2.2 _ hmem, ?_, h.2.2.1 _ hmem⟩
  rcases shape_of_inv h with ⟨p1, hl, -, -, hnd1, -⟩ |
    ⟨p1, p2, hl, -, -, -, -, hnd, -⟩
  · obtain ⟨he, -⟩ := lookup_one_some hl hp
    rw [he]
    exact hnd1
  · rcases lookup_two_some hl hp with ⟨he, -⟩ | ⟨he, -⟩ <;> rw [he]
    · exact (List.nodup_append.1 hnd).1
    · exact (List.nodup_append.1 hnd).2.1

theorem emod_succ_cases {i n : Nat} (hi : i < n) :
    ((i : Int) + 1).emod n = if i + 1 = n then 0 else (i : Int) + 1 := by
  by_cases hc : i + 1 = n
  · rw [if_pos hc]
    have he : ((i : Int) + 1) = (n : Int) := by exact_mod_cast congrArg Nat.cast hc
    rw [he]
    exact Int.emod_self
  · rw [if_neg hc]
    refine Int.emod_eq_of_lt (by omega) (by omega)

theorem emod_pred_cases {j n : Nat} (hj : j < n) :
    ((j : Int) + (-1)).emod n = if j = 0 then ((n : Int) - 1) else ((j : Int) - 1) := by
  by_cases hc : j = 0
  · rw [if_pos hc]
    subst hc
    have h2 : ((-1 : Int)).emod n = ((n : Int) - 1) := by
      have h3 : ((-1 : Int) + (n : Int) * 1) % (n : Int) = (-1 : Int) % (n : Int) :=
        Int.add_mul_emod_self_left (-1) ((n : Int)) 1
      have h4 : ((n : Int) - 1) = -1 + (n : Int) * 1 := by ring
      calc ((-1 : Int)).emod n = (-1 : Int) % (n : Int) := rfl
        _ = ((-1 : Int) + (n : Int) * 1) % (n : Int) := h3.symm
        _ = ((n : Int) - 1) % (n : Int) := by rw [← h4]
        _ = ((n : Int) - 1) := Int.emod_eq_of_lt (by omega) (by omega)
    have h5 : (((0 : Nat) : Int) + (-1)) = (-1 : Int) := by norm_num
    rw [h5]
    exact h2
  · rw [if_neg hc]
    have h5 : ((j : Int) + (-1)) = (j : Int) - 1 := by ring
    rw [h5]
    exact Int.emod_eq_of_lt (by omega) (by omega)

/-- C8: on a valid pane, MRU traversal with direction `+1`/`-1` returns
the file adjacent to the current one in MRU order with wrap-around: an
empty view list yields `null`, a one-element view list yields that same
file, the general case indexes the MRU order at the current index plus
the direction modulo the length, and for view lists with at least two
entries traversing `+1` and then `-1` (from the file so reached) returns
the original current file. -/
theorem c8_traverse_mru {s : MVM} (h : Reachable s) {pid : String} {pane : Pane}
    (hp : _getPaneFromPaneId s pid = some pane) {d : Int} (_hd : d = 1 ∨ d = -1) :
    (pane.viewList = [] → traversePaneViewListByMRU s pid d = none)
    ∧ (∀ f, pane.viewList = [f] → traversePaneViewListByMRU s pid d = some f)
    ∧ (∀ c i, pane.currentFile = some c →
        pane.mruList.findIdx? (fun g => g == c) = some i →
        traversePaneViewListByMRU s pid d
          = pane.mruList.get? (((i : Int) + d).emod pane.mruList.length).toNat)
    ∧ (∀ c, pane.currentFile = some c → c ∈ pane.viewList →
        2 ≤ pane.viewList.length →
        ∃ g, traversePaneViewListByMRU s pid 1 = some g
          ∧ traversePaneViewListByMRU (setPane s { pane with currentFile := some g })
              pid (-1) = some c) := by
  have hinv := reachable_inv h
  obtain ⟨hpm, hvnd, hid⟩ := pane_props_of_inv hinv hp
  refine ⟨?_, ?_, ?_, ?_⟩
  · intro hnil
    rw [hnil] at hpm
    have hm : pane.mruList = [] := hpm.eq_nil
    unfold traversePaneViewListByMRU Pane.traverseViewListByMRU
    rw [hp]
    cases hcf : pane.currentFile <;> simp [hm, hcf]
  · intro f hone
    rw [hone] at hpm
    have hm : pane.mruList = [f] := List.perm_singleton.1 hpm
    unfold traversePaneViewListByMRU
    rw [hp]
    simp only [Pane.traverseViewListByMRU, hm]
    have h1 : d.emod 1 = 0 := Int.emod_one d
    cases hcf : pane.currentFile with
    | none => simp
    | some c =>
      by_cases hfc : (f == c) = true
      · simp [List.findIdx?_cons, hfc, h1]
      · simp [List.findIdx?_cons, List.findIdx?_succ, List.findIdx?_nil, hfc]
  · intro c i hcf hfi
    unfold traversePaneViewListByMRU
    rw [hp]
    simp only [Pane.traverseViewListByMRU, hcf, hfi]
  · intro c hcf hcv hlen
    have hcm : c ∈ pane.mruList := hpm.mem_iff.2 hcv
    have hlenm : pane.mruList.length = pane.viewList.length := hpm.length_eq
    have hmnd : pane.mruList.Nodup := hpm.nodup_iff.2 hvnd
    rcases hfi : pane.mruList.findIdx? (fun g => g == c) with _ | i
    · exact absurd (findIdx?_beq_eq_none_iff.1 hfi) (by simpa using hcm)
    · have hi : i < pane.mruList.length := findIdx?_lt_length hfi
      have hn2 : 2 ≤ pane.mruList.length := by omega
      have hidx : ∃ j, j < pane.mruList.length
          ∧ ((((i : Int) + 1).emod pane.mruList.length).toNat = j)
          ∧ (((j : Int) + (-1)).emod pane.mruList.length = (i : Int)) := by
        by_cases hin : i + 1 = pane.mruList.length
        · refine ⟨0, by omega, ?_, ?_⟩
          · rw [emod_succ_cases hi, if_pos hin]
            rfl
          · rw [emod_pred_cases (by omega : 0 < pane.mruList.length), if_pos rfl]
            omega
        · refine ⟨i + 1, by omega, ?_, ?_⟩
          · rw [emod_succ_cases hi, if_neg hin]
            omega
          · rw [emod_pred_cases (by omega : i + 1 < pane.mruList.length),
              if_neg (by omega)]
            push_cast
            ring
      obtain ⟨j, hjn, hjeq, hback⟩ := hidx
      have ht1 : traversePaneViewListByMRU s pid 1
          = some (pane.mruList.get ⟨j, hjn⟩) := by
        unfold traversePaneViewListByMRU
        rw [hp]
        simp only [Pane.traverseViewListByMRU, hcf, hfi, hjeq]
        exact List.get?_eq_get hjn
      refine ⟨pane.mruList.get ⟨j, hjn⟩, ht1, ?_⟩
      have hp2 : _getPaneFromPaneId
          (setPane s { pane with currentFile := some (pane.mruList.get ⟨j, hjn⟩) }) pid
          = some { pane with currentFile := some (pane.mruList.get ⟨j, hjn⟩) } := by
        unfold _getPaneFromPaneId at hp ⊢
        exact lookup_setPane_self hp hid
      unfold traversePaneViewListByMRU
      rw [hp2]
      have hfj : pane.mruList.findIdx?
          (fun g => g == pane.mruList.get ⟨j, hjn⟩) = some j :=
        nodup_findIdx?_get hmnd j hjn
      simp only [Pane.traverseViewListByMRU, hfj]
      have hgi : (((j : Int) + (-1)).emod pane.mruList.length).toNat = i := by
        rw [hback]
        omega
      rw [hgi]
      rw [List.get?_eq_get hi]
      have := findIdx?_get hfi hi
      simp only [beq_iff_eq] at this
      rw [this]

/-- A test environment where every file has an open document. -/
def envDocOpen : Env :=
  { canOpenFile := fun _ => true
  , getOpenDocumentForPath := fun _ => true
  , getDocumentForPath := fun _ => Except.ok ()
  , isWithinProject := fun _ => true
  , isUntitledDoc := fun _ => false }

/-- The state with `fileA` and `fileB` open in the first pane. -/
def stateAB : MVM :=
  ⟨[(FIRST_PANE, ⟨FIRST_PANE, [fileA, fileB], [fileA, fileB], none⟩)],
   FIRST_PANE, none⟩

/-- The first pane viewing `fileA` with `fileA`, `fileB` open. -/
def paneABopen : Pane := ⟨FIRST_PANE, [fileA, fileB], [fileA, fileB], some fileA⟩

/-- `stateAB` after `doOpen` put `fileA` on screen. -/
def stateABopen : MVM := ⟨[(FIRST_PANE, paneABopen)], FIRST_PANE, none⟩

theorem reachable_stateABopen : Reachable stateABopen :=
  @Reachable.step stateAB (Op.doOpen envDocOpen FIRST_PANE (some fileA)) stateABopen
    [Ev.currentFileChanged (some fileA) FIRST_PANE]
    (@Reachable.step stateA
      (Op.addToPaneViewList envAllOpen FIRST_PANE fileB none false) stateAB
      [Ev.paneViewListAdd fileB 1 FIRST_PANE]
      reachable_stateA (by decide))
    (by decide)

theorem c8_witness :
    ((paneABopen.viewList = [] → traversePaneViewListByMRU stateABopen FIRST_PANE 1 = none)
    ∧ (∀ f, paneABopen.viewList = [f] →
        traversePaneViewListByMRU stateABopen FIRST_PANE 1 = some f)
    ∧ (∀ c i, paneABopen.currentFile = some c →
        paneABopen.mruList.findIdx? (fun g => g == c) = some i →
        traversePaneViewListByMRU stateABopen FIRST_PANE 1
          = paneABopen.mruList.get? (((i : Int) + 1).emod paneABopen.mruList.length).toNat)
    ∧ (∀ c, paneABopen.currentFile = some c → c ∈ paneABopen.viewList →
        2 ≤ paneABopen.viewList.length →
        ∃ g, traversePaneViewListByMRU stateABopen FIRST_PANE 1 = some g
          ∧ traversePaneViewListByMRU
              (setPane stateABopen { paneABopen with currentFile := some g })
              FIRST_PANE (-1) = some c)) :=
  c8_traverse_mru reachable_stateABopen (by decide) (Or.inl rfl)

/-- The per-pane view lists of a state, keyed by pane id. -/
def viewListsOf (s : MVM) : List (String × List File) :=
  s.paneViews.map (fun pr => (pr.1, pr.2.viewList))

theorem map_upd_id {l : List (String × Pane)} {q : Pane}
    (hk : q.id ∉ l.map Prod.fst) :
    l.map (fun pr => if pr.1 == q.id then (pr.1, q) else pr) = l := by
  induction l with
  | nil => rfl
  | cons pr rest ih =>
    simp only [List.map_cons, List.mem_cons] at hk ⊢
    push_neg at hk
    rw [if_neg (by simpa using fun he => hk.1 he.symm), ih hk.2]

theorem setPane_keys (s : MVM) (q : Pane) :
    (setPane s q).paneViews.map Prod.fst = s.paneViews.map Prod.fst := by
  unfold setPane
  rw [List.map_map]
  refine List.map_congr_left ?_
  intro pr _
  simp only [Function.comp_apply]
  by_cases hc : (pr.1 == q.id) = true
  · rw [if_pos hc]
  · rw [if_neg hc]

theorem viewListsOf_setPane {s : MVM} {q p : Pane} {k : String}
    (hk : s.paneViews.lookup k = some p) (hq : q.id = k) (hv : q.viewList = p.viewList)
    (hkeys : (s.paneViews.map Prod.fst).Nodup) :
    viewListsOf (setPane s q) = viewListsOf s := by
  unfold viewListsOf setPane
  rcases s with ⟨l, act, o⟩
  simp only at hk hkeys ⊢
  clear act o
  induction l with
  | nil => rfl
  | cons pr rest ih =>
    simp only [List.map_cons, List.nodup_cons] at hkeys ⊢
    by_cases hc : k = pr.1
    · have hb : (pr.1 == q.id) = true := by
        rw [hq, ← hc]
        simp
      have hval : pr.2 = p := by
        have : List.lookup k (pr :: rest) = some pr.2 := by
          simp [List.lookup, show (k == pr.1) = true from by simpa using hc]
        rw [hk] at this
        exact (Option.some.injEq _ _ ▸ this).symm
      rw [if_pos hb]
      have hrest : q.id ∉ rest.map Prod.fst := by
        rw [hq, hc]
        exact hkeys.1
      rw [map_upd_id hrest]
      simp only [List.map_cons]
      rw [hv, hval]
    · have hb : (pr.1 == q.id) = false := by
        rw [hq]
        simpa using fun he => hc he.symm
      rw [if_neg (by simp [hb])]
      have hlk : List.lookup k rest = some p := by
        have : (k == pr.1) = false := by simpa using hc
        simpa [List.lookup, this] using hk
      rw [ih hlk hkeys.2]

theorem keys_nodup_of_inv {s : MVM} (h : StateInv s) :
    (s.paneViews.map Prod.fst).Nodup := by
  rcases h.1 with hk | hk <;> rw [hk]
  · simp
  · simp [first_ne_second]

theorem setActivePaneId_paneViews (s : MVM) (k : String) :
    (setActivePaneId s k).1.paneViews = s.paneViews := by
  unfold setActivePaneId
  split <;> rfl

theorem setActivePaneId_act {s : MVM} {k : String}
    (hk : (s.paneViews.lookup k).isSome = true) :
    (setActivePaneId s k).1.activePaneId = k := by
  unfold setActivePaneId
  by_cases hc : (s.paneViews.lookup k).isSome = true ∧ k ≠ s.activePaneId
  · rw [if_pos hc]
  · rw [if_neg hc]
    rw [not_and_or] at hc
    rcases hc with hc | hc
    · exact absurd hk hc
    · rw [not_not] at hc
      exact hc.symm

theorem setActivePaneId_noop {s : MVM} {k : String} (hk : s.activePaneId = k) :
    setActivePaneId s k = (s, []) := by
  unfold setActivePaneId
  rw [if_neg]
  intro hc
  exact hc.2 hk.symm

theorem getPaneIdForPath_congr {s t : MVM} (hpv : t.paneViews = s.paneViews)
    (f : File) : getPaneIdForPath t f = getPaneIdForPath s f := by
  unfold getPaneIdForPath findInPaneViewList
  rw [if_pos rfl, if_pos rfl, hpv]

theorem resolvePaneId_of_ne {s : MVM} {pid : String} (h1 : pid ≠ "")
    (h2 : pid ≠ FOCUSED_PANE) : resolvePaneId s pid = pid := by
  unfold resolvePaneId
  rw [if_neg]
  push_neg
  exact ⟨h1, h2⟩

theorem registry_key_cases {s : MVM} (h : StateInv s) {k : String} {p : Pane}
    (hk : s.paneViews.lookup k = some p) : k = FIRST_PANE ∨ k = SECOND_PANE := by
  rcases shape_of_inv h with ⟨p1, hl, -, -, -, -⟩ | ⟨p1, p2, hl, -, -, -, -, -, -⟩
  · exact Or.inl (lookup_one_some hl hk).2
  · rcases lookup_two_some hl hk with ⟨-, hkk⟩ | ⟨-, hkk⟩
    · exact Or.inl hkk
    · exact Or.inr hkk

theorem getPaneIdForPath_eq_of_mem {s : MVM} (h : StateInv s) {kB : String}
    {pB : Pane} {f : File} (hB : s.paneViews.lookup kB = some pB)
    (hf : f ∈ pB.viewList) : getPaneIdForPath s f = some kB := by
  have hfind : ∀ (p : Pane), f ∈ p.viewList → ∃ i, p.findInViewList f = some i := by
    intro p hm
    rcases hfi : p.findInViewList f with _ | i
    · exact absurd (findIdx?_beq_eq_none_iff.1 hfi) (by simpa using hm)
    · exact ⟨i, rfl⟩
  unfold getPaneIdForPath findInPaneViewList
  rw [if_pos rfl]
  rcases shape_of_inv h with ⟨p1, hl, hid1, -, -, -⟩ |
    ⟨p1, p2, hl, hid1, hid2, -, -, hnd, -⟩
  · obtain ⟨hpB, hkB⟩ := lookup_one_some hl hB
    obtain ⟨i, hi⟩ := hfind p1 (hpB ▸ hf)
    rw [hl]
    unfold findInAllPanes
    rw [hi]
    simp [hid1, hkB]
  · rcases lookup_two_some hl hB with ⟨hpB, hkB⟩ | ⟨hpB, hkB⟩
    · obtain ⟨i, hi⟩ := hfind p1 (hpB ▸ hf)
      rw [hl]
      unfold findInAllPanes
      rw [hi]
      simp [hid1, hkB]
    · have hnf1 : f ∉ p1.viewList := by
        intro hm
        exact (List.disjoint_of_nodup_append hnd) hm (hpB ▸ hf)
      have h1none : p1.findInViewList f = none := findIdx?_beq_eq_none_iff.2 hnf1
      obtain ⟨i, hi⟩ := hfind p2 (hpB ▸ hf)
      rw [hl]
      unfold findInAllPanes
      rw [h1none]
      unfold findInAllPanes
      rw [hi]
      simp [hid2, hkB]

theorem makeViewMostRecent_id (p : Pane) (f : File) :
    (p.makeViewMostRecent f).id = p.id := by
  unfold Pane.makeViewMostRecent
  split <;> rfl

theorem makeViewMostRecent_viewList (p : Pane) (f : File) :
    (p.makeViewMostRecent f).viewList = p.viewList := by
  unfold Pane.makeViewMostRecent
  split <;> rfl

theorem doEdit_present {s1 : MVM} (hinv1 : StateInv s1) {kB : String} {pB : Pane}
    {f : File} (hB1 : s1.paneViews.lookup kB = some pB) (hf : f ∈ pB.viewList)
    (hact : s1.activePaneId = kB) (env : Env) :
    (doEdit env s1 kB f).1.activePaneId = kB
    ∧ viewListsOf (doEdit env s1 kB f).1 = viewListsOf s1 := by
  have hkB := registry_key_cases hinv1 hB1
  have hkne : kB ≠ "" ∧ kB ≠ FOCUSED_PANE := by
    rcases hkB with hk | hk <;> rw [hk] <;> exact ⟨by decide, by decide⟩
  have hres1 : resolvePaneId s1 kB = kB := resolvePaneId_of_ne hkne.1 hkne.2
  have hred1 : getPaneIdForPath s1 f = some kB :=
    getPaneIdForPath_eq_of_mem hinv1 hB1 hf
  have hsid : setActivePaneId s1 kB = (s1, []) := setActivePaneId_noop hact
  have hidB : pB.id = kB := (pane_props_of_inv hinv1 hB1).2.2
  have hgp1 : _getPaneFromPaneId s1 kB = some pB := by
    unfold _getPaneFromPaneId
    rw [hres1]
    exact hB1
  have hadd : addToPaneViewList env s1 kB f none false = (s1, []) := by
    unfold addToPaneViewList
    simp only [hgp1]
    rw [if_pos (Or.inr (by rw [hred1]; rfl))]
  have hlkid : s1.paneViews.lookup pB.id = some pB := by
    rw [hidB]
    exact hB1
  have hdod : doOpenDocument s1 pB.id f
      = setPane s1 { pB with currentFile := some f } := by
    unfold doOpenDocument
    rw [hlkid]
  have hkeys1 := keys_nodup_of_inv hinv1
  have hv2 : viewListsOf (setPane s1 { pB with currentFile := some f })
      = viewListsOf s1 :=
    viewListsOf_setPane hlkid rfl rfl hkeys1
  have hact2 : (setPane s1 { pB with currentFile := some f }).activePaneId = kB := hact
  have hlk2 : (setPane s1 { pB with currentFile := some f }).paneViews.lookup kB
      = some { pB with currentFile := some f } := by
    unfold setPane
    exact lookup_setPane_self hB1 hidB
  have hgp2 : _getPaneFromPaneId (setPane s1 { pB with currentFile := some f }) kB
      = some { pB with currentFile := some f } := by
    unfold _getPaneFromPaneId resolvePaneId getActivePaneId
    rw [show (setPane s1 { pB with currentFile := some f }).activePaneId
        = s1.activePaneId from rfl]
    rw [show (if kB = "" ∨ kB = FOCUSED_PANE then s1.activePaneId else kB) = kB from by
      rw [if_neg]; push_neg; exact hkne]
    exact hlk2
  have hmk : makePaneViewMostRecent (setPane s1 { pB with currentFile := some f }) kB f
      = setPane (setPane s1 { pB with currentFile := some f })
          ({ pB with currentFile := some f }.makeViewMostRecent f) := by
    unfold makePaneViewMostRecent
    rw [hgp2]
  have hkeys2 : ((setPane s1 { pB with currentFile := some f }).paneViews.map
      Prod.fst).Nodup := by
    rw [setPane_keys]
    exact hkeys1
  have hv3 : viewListsOf (setPane (setPane s1 { pB with currentFile := some f })
        ({ pB with currentFile := some f }.makeViewMostRecent f))
      = viewListsOf (setPane s1 { pB with currentFile := some f }) :=
    viewListsOf_setPane hlk2 ((makeViewMostRecent_id _ _).trans hidB)
      (makeViewMostRecent_viewList _ _) hkeys2
  unfold doEdit
  simp only [hred1, hsid, hgp1, hadd, ite_self, hdod, hmk]
  constructor
  · exact hact2
  · exact hv3.trans hv2

/-- C4: `doOpen` on a file already present in pane B's view list, with
any requested pane id A, makes B the active pane and leaves every pane's
view list (and the set of panes) unchanged — no new view-list entry is
created anywhere. -/
theorem c4_doOpen_already_open {s : MVM} (h : Reachable s) (env : Env)
    {kB : String} {pB : Pane} {f : File}
    (hB : s.paneViews.lookup kB = some pB) (hf : f ∈ pB.viewList) (kA : String) :
    (doOpen env s kA (some f)).1.activePaneId = kB
    ∧ viewListsOf (doOpen env s kA (some f)).1 = viewListsOf s := by
  have hinv := reachable_inv h
  have hred : getPaneIdForPath s f = some kB := getPaneIdForPath_eq_of_mem hinv hB hf
  have hs1pv : (setActivePaneId s kB).1.paneViews = s.paneViews :=
    setActivePaneId_paneViews s kB
  have hs1act : (setActivePaneId s kB).1.activePaneId = kB :=
    setActivePaneId_act (by rw [hB]; rfl)
  have hinv1 : StateInv (setActivePaneId s kB).1 := inv_setActivePaneId hinv kB
  have hB1 : (setActivePaneId s kB).1.paneViews.lookup kB = some pB := by
    rw [hs1pv]
    exact hB
  have hVcongr : viewListsOf (setActivePaneId s kB).1 = viewListsOf s := by
    unfold viewListsOf
    rw [hs1pv]
  unfold doOpen
  simp only [hred]
  by_cases hdoc : env.getOpenDocumentForPath f
  · simp only [if_pos hdoc]
    have hE := doEdit_present hinv1 hB1 hf hs1act env
    exact ⟨hE.1, hE.2.trans hVcongr⟩
  · simp only [if_neg hdoc]
    by_cases hcan : env.canOpenFile f
    · simp only [if_pos hcan]
      rcases hload : env.getDocumentForPath f with e | u
      · simp only [hload]
        exact ⟨hs1act, hVcongr⟩
      · simp only [hload]
        have hE := doEdit_present hinv1 hB1 hf hs1act env
        exact ⟨hE.1, hE.2.trans hVcongr⟩
    · simp only [if_neg hcan]
      exact ⟨hs1act, hVcongr⟩

theorem c4_witness :
    ((doOpen envDocOpen stateA SECOND_PANE (some fileA)).1.activePaneId = FIRST_PANE
    ∧ viewListsOf (doOpen envDocOpen stateA SECOND_PANE (some fileA)).1
        = viewListsOf stateA) :=
  @c4_doOpen_already_open stateA reachable_stateA envDocOpen FIRST_PANE paneA fileA
    (by decide) (by decide) SECOND_PANE

theorem setPane_setPane {s : MVM} {p q : Pane} (hq : q.id = p.id) :
    setPane (setPane s p) q = setPane s q := by
  unfold setPane
  simp only [List.map_map]
  congr 1
  refine List.map_congr_left ?_
  intro pr _
  simp only [Function.comp_apply]
  by_cases hc : (pr.1 == p.id) = true
  · have hc2 : (pr.1 == q.id) = true := by
      rw [hq]
      exact hc
    simp [hc, hc2]
  · have hc2 : (pr.1 == q.id) = false := by
      rw [hq]
      simpa using hc
    simp [hc, hc2]

theorem map_upd_self {l : List (String × Pane)} {k : String} {p : Pane}
    (hk : l.lookup k = some p) (hq : p.id = k)
    (hkeys : (l.map Prod.fst).Nodup) :
    l.map (fun pr => if pr.1 == p.id then (pr.1, p) else pr) = l := by
  induction l with
  | nil => rfl
  | cons pr rest ih =>
    simp only [List.map_cons, List.nodup_cons] at hkeys ⊢
    by_cases hc : k = pr.1
    · have hb : (pr.1 == p.id) = true := by
        rw [hq, ← hc]
        simp
      have hval : pr.2 = p := by
        have h5 : List.lookup k (pr :: rest) = some pr.2 := by
          simp [List.lookup, show (k == pr.1) = true from by simpa using hc]
        rw [hk] at h5
        exact (Option.some.injEq _ _ ▸ h5).symm
      have hrest : p.id ∉ rest.map Prod.fst := by
        rw [hq, hc]
        exact hkeys.1
      rw [if_pos hb, map_upd_id hrest, ← hval]
    · have hb : (pr.1 == p.id) = false := by
        rw [hq]
        simpa using fun he => hc he.symm
      have hlk : List.lookup k rest = some p := by
        have h5 : (k == pr.1) = false := by simpa using hc
        simpa [List.lookup, h5] using hk
      rw [if_neg (by simp [hb]), ih hlk hkeys.2]

theorem setPane_self {s : MVM} {k : String} {p : Pane}
    (hk : s.paneViews.lookup k = some p) (hq : p.id = k)
    (hkeys : (s.paneViews.map Prod.fst).Nodup) :
    setPane s p = s := by
  unfold setPane
  rw [map_upd_self hk hq hkeys]

theorem occupied_setPane {s : MVM} {k : String} {pane q : Pane} {u : List File}
    (hk : s.paneViews.lookup k = some pane) (hq : q.id = k)
    (hkeys : (s.paneViews.map Prod.fst).Nodup)
    (hv : q.viewList = pane.viewList ++ u) (g : File) :
    occupied (setPane s q) g = (occupied s g || u.contains g) := by
  unfold occupied setPane
  rcases s with ⟨l, act, o⟩
  simp only at hk hkeys ⊢
  clear act o
  induction l with
  | nil => simp [List.lookup] at hk
  | cons pr rest ih =>
    simp only [List.map_cons, List.nodup_cons] at hkeys
    by_cases hc : k = pr.1
    · have hb : (pr.1 == q.id) = true := by
        rw [hq, ← hc]
        simp
      have hval : pr.2 = pane := by
        have h5 : List.lookup k (pr :: rest) = some pr.2 := by
          simp [List.lookup, show (k == pr.1) = true from by simpa using hc]
        rw [hk] at h5
        exact (Option.some.injEq _ _ ▸ h5).symm
      have hrest : q.id ∉ rest.map Prod.fst := by
        rw [hq, hc]
        exact hkeys.1
      simp only [List.map_cons, if_pos hb, map_upd_id hrest, List.any_cons]
      rw [hv, hval]
      have hca : (pane.viewList ++ u).contains g
          = (pane.viewList.contains g || u.contains g) := by
        simp [List.contains_eq_any_beq]
      rw [hca]
      cases pane.viewList.contains g <;>
        cases (rest.any fun pr => pr.2.viewList.contains g) <;>
        cases u.contains g <;> rfl
    · have hb : (pr.1 == q.id) = false := by
        rw [hq]
        simpa using fun he => hc he.symm
      have hlk : List.lookup k rest = some pane := by
        have h5 : (k == pr.1) = false := by simpa using hc
        simpa [List.lookup, h5] using hk
      simp only [List.map_cons, List.any_cons]
      rw [if_neg (show ¬ ((pr.1 == q.id) = true) from by simp [hb])]
      rw [ih hlk hkeys.2]
      cases pr.2.viewList.contains g <;>
        cases (rest.any fun pr => pr.2.viewList.contains g) <;>
        cases u.contains g <;> rfl

theorem addListFilter_congr {can occ occ' : File → Bool} {fl : List File}
    (h : ∀ g ∈ fl, occ g = occ' g) :
    addListFilter can occ fl = addListFilter can occ' fl := by
  induction fl generalizing occ occ' with
  | nil => rfl
  | cons f rest ih =>
    unfold addListFilter
    have hf : occ f = occ' f := h f (by simp)
    by_cases hc : can f ∧ ¬ occ f
    · rw [if_pos hc, if_pos (by rw [← hf]; exact hc)]
      congr 1
      refine ih ?_
      intro g hg
      rw [h g (by simp [hg])]
    · rw [if_neg hc, if_neg (by rw [← hf]; exact hc)]
      exact ih (fun g hg => h g (by simp [hg]))

theorem addListFilter_eq_filter {can occ : File → Bool} {fl : List File}
    (hnd : fl.Nodup) :
    addListFilter can occ fl = fl.filter (fun f => can f && !(occ f)) := by
  induction fl generalizing occ with
  | nil => rfl
  | cons f rest ih =>
    obtain ⟨hnm, hrest⟩ := List.nodup_cons.1 hnd
    unfold addListFilter
    by_cases hc : can f ∧ ¬ occ f
    · rw [if_pos hc]
      have hcb : (can f && !(occ f)) = true := by
        simp only [Bool.and_eq_true, Bool.not_eq_true']
        exact ⟨hc.1, by simpa using hc.2⟩
      rw [List.filter_cons_of_pos (p := fun g => can g && !(occ g)) hcb]
      congr 1
      have hcg : addListFilter can (fun g => occ g || g == f) rest
          = addListFilter can occ rest := by
        refine addListFilter_congr ?_
        intro g hg
        have hgf : (g == f) = false := by
          simp only [beq_eq_false_iff_ne, ne_eq]
          intro he
          rw [he] at hg
          exact hnm hg
        simp [hgf]
      rw [hcg]
      exact ih hrest
    · rw [if_neg hc]
      have hcb : (can f && !(occ f)) = false := by
        rw [not_and_or] at hc
        rcases hc with hc | hc
        · simp [show can f = false from by simpa using hc]
        · rw [not_not] at hc
          simp [hc]
      rw [List.filter_cons_of_neg (p := fun g => can g && !(occ g)) (by simp [hcb])]
      exact ih hrest

theorem getPaneIdForPath_isSome_eq_occupied (s : MVM) (f : File) :
    (getPaneIdForPath s f).isSome = occupied s f := by
  cases hocc : occupied s f
  · rw [getPaneIdForPath_none_iff.2 (occupied_false_iff.1 hocc)]
    rfl
  · rcases findInAllPanes_cases s.paneViews f with hc | ⟨pid', i, hc⟩
    · exfalso
      have h5 := occupied_false_iff.2 (findInAllPanes_notFound_iff.1 hc)
      rw [h5] at hocc
      exact absurd hocc (by simp)
    · unfold getPaneIdForPath findInPaneViewList
      rw [if_pos rfl, hc]
      rfl

theorem addTo_fold (env : Env) (fl : List File) :
    ∀ {s : MVM}, StateInv s → ∀ {pid : String} {pane : Pane},
      _getPaneFromPaneId s pid = some pane →
      List.foldl (fun st f => (addToPaneViewList env st pid f none false).1) s fl
        = setPane s { pane with
                      viewList := pane.viewList
                        ++ addListFilter env.canOpenFile (fun g => occupied s g) fl,
                      mruList := pane.mruList
                        ++ addListFilter env.canOpenFile (fun g => occupied s g) fl } := by
  induction fl with
  | nil =>
    intro s h pid pane hp
    simp only [List.foldl_nil, addListFilter]
    have hpane : ({ pane with
                    viewList := pane.viewList ++ [],
                    mruList := pane.mruList ++ [] } : Pane) = pane := by
      simp
    rw [hpane]
    exact (setPane_self hp (pane_props_of_inv h hp).2.2 (keys_nodup_of_inv h)).symm
  | cons f rest ih =>
    intro s h pid pane hp
    have props := pane_props_of_inv h hp
    have hkeys := keys_nodup_of_inv h
    have hmem := mem_of_lookup_eq_some hp
    simp only [List.foldl_cons]
    by_cases hcond : env.canOpenFile f = true ∧ ¬ occupied s f = true
    · have hnotin : f ∉ pane.viewList := by
        have h5 := occupied_false_iff.1 (by simpa using hcond.2)
        exact h5 _ hmem
      have hguard : ¬ (¬ env.canOpenFile f = true
          ∨ (getPaneIdForPath s f).isSome = true) := by
        push_neg
        refine ⟨hcond.1, ?_⟩
        rw [getPaneIdForPath_isSome_eq_occupied]
        simpa using hcond.2
      have hstep : (addToPaneViewList env s pid f none false).1
          = setPane s { pane with
                        viewList := pane.viewList ++ [f],
                        mruList := pane.mruList ++ [f] } := by
        unfold addToPaneViewList
        simp only [hp]
        rw [if_neg hguard]
        simp only [Pane.reorderItem, if_neg hnotin]
        rfl
      rw [hstep]
      have hinv1 : StateInv (setPane s { pane with
          viewList := pane.viewList ++ [f],
          mruList := pane.mruList ++ [f] }) := by
        have h6 := inv_addToPaneViewList env h pid f none false
        rwa [hstep] at h6
      have hp1 : _getPaneFromPaneId
          (setPane s { pane with
            viewList := pane.viewList ++ [f],
            mruList := pane.mruList ++ [f] }) pid
          = some { pane with
                   viewList := pane.viewList ++ [f],
                   mruList := pane.mruList ++ [f] } := by
        show (setPane s { pane with
            viewList := pane.viewList ++ [f],
            mruList := pane.mruList ++ [f] }).paneViews.lookup
            (resolvePaneId s pid)
          = some { pane with
                   viewList := pane.viewList ++ [f],
                   mruList := pane.mruList ++ [f] }
        exact lookup_setPane_self hp props.2.2
      rw [ih hinv1 hp1]
      have hocc : ∀ g, occupied (setPane s { pane with
            viewList := pane.viewList ++ [f],
            mruList := pane.mruList ++ [f] }) g = (occupied s g || g == f) := by
        intro g
        have h7 := occupied_setPane
          (q := { pane with
                  viewList := pane.viewList ++ [f],
                  mruList := pane.mruList ++ [f] })
          (u := [f]) hp props.2.2 hkeys rfl g
        rw [h7]
        congr 1
        rw [Bool.eq_iff_iff]
        simp [List.contains_eq_any_beq]
      have hF : addListFilter env.canOpenFile
            (fun g => occupied (setPane s { pane with
              viewList := pane.viewList ++ [f],
              mruList := pane.mruList ++ [f] }) g) rest
          = addListFilter env.canOpenFile (fun g => occupied s g || g == f) rest :=
        addListFilter_congr (fun g _ => hocc g)
      rw [hF]
      rw [setPane_setPane
        (p := { pane with
                viewList := pane.viewList ++ [f],
                mruList := pane.mruList ++ [f] })
        (q := { pane with
                viewList := (pane.viewList ++ [f])
                  ++ addListFilter env.canOpenFile (fun g => occupied s g || g == f)
                      rest,
                mruList := (pane.mruList ++ [f])
                  ++ addListFilter env.canOpenFile (fun g => occupied s g || g == f)
                      rest })
        rfl]
      have hskip : addListFilter env.canOpenFile (fun g => occupied s g) (f :: rest)
          = f :: addListFilter env.canOpenFile (fun g => occupied s g || g == f)
              rest := by
        simp only [addListFilter]
        rw [if_pos hcond]
      rw [hskip]
      have hrec : ({ pane with
            viewList := (pane.viewList ++ [f])
              ++ addListFilter env.canOpenFile (fun g => occupied s g || g == f) rest,
            mruList := (pane.mruList ++ [f])
              ++ addListFilter env.canOpenFile (fun g => occupied s g || g == f) rest }
            : Pane)
          = { pane with
              viewList := pane.viewList
                ++ f :: addListFilter env.canOpenFile
                    (fun g => occupied s g || g == f) rest,
              mruList := pane.mruList
                ++ f :: addListFilter env.canOpenFile
                    (fun g => occupied s g || g == f) rest } := by
        simp [List.append_assoc]
      rw [hrec]
    · have hguard : (¬ env.canOpenFile f = true
          ∨ (getPaneIdForPath s f).isSome = true) := by
        rw [getPaneIdForPath_isSome_eq_occupied]
        rw [not_and_or] at hcond
        rcases hcond with hc | hc
        · exact Or.inl hc
        · rw [not_not] at hc
          exact Or.inr (by simpa using hc)
      have hstep : (addToPaneViewList env s pid f none false).1 = s := by
        unfold addToPaneViewList
        simp only [hp]
        rw [if_pos hguard]
      rw [hstep, ih h hp]
      have hskip : addListFilter env.canOpenFile (fun g => occupied s g) (f :: rest)
          = addListFilter env.canOpenFile (fun g => occupied s g) rest := by
        simp only [addListFilter]
        rw [if_neg hcond]
      rw [hskip]

/-- C3: on a valid pane, `addListToPaneViewList` changes the state
exactly as adding each file of the batch in order with
`addToPaneViewList` would (so a file is admitted under the same
conditions: only if the editor can open it and it is not already open in
any pane), and it emits exactly one `paneViewListAddList` notification
carrying the admitted files for the whole batch. -/
theorem c3_addList_batch (env : Env) {s : MVM} (h : StateInv s) {pid : String}
    {pane : Pane} (hp : _getPaneFromPaneId s pid = some pane) {fl : List File}
    (hnd : fl.Nodup) :
    addListToPaneViewList env s pid fl
      = (List.foldl (fun st f => (addToPaneViewList env st pid f none false).1) s fl,
         [Ev.paneViewListAddList
            (fl.filter (fun f =>
              env.canOpenFile f && !((getPaneIdForPath s f).isSome)))
            pane.id]) := by
  unfold addListToPaneViewList
  simp only [hp]
  rw [addTo_fold env fl h hp]
  have hu : addListFilter env.canOpenFile (fun f => occupied s f) fl
      = fl.filter (fun f =>
          env.canOpenFile f && !((getPaneIdForPath s f).isSome)) := by
    rw [addListFilter_eq_filter hnd]
    refine List.filter_congr ?_
    intro g hg
    rw [getPaneIdForPath_isSome_eq_occupied]
  rw [hu]

theorem c3_witness :
    addListToPaneViewList envAllOpen stateA FIRST_PANE [fileA, fileB]
      = (List.foldl
          (fun st f => (addToPaneViewList envAllOpen st FIRST_PANE f none false).1)
          stateA [fileA, fileB],
         [Ev.paneViewListAddList
            ([fileA, fileB].filter (fun f =>
              envAllOpen.canOpenFile f && !((getPaneIdForPath stateA f).isSome)))
            paneA.id]) :=
  @c3_addList_batch envAllOpen stateA (by decide) FIRST_PANE paneA (by decide)
    [fileA, fileB] (by decide)
